import Mathlib

/-!
Shallow embedding of the order-registry logic of `src/server.js`
(restaurant order tracker).  The registry's mutable globals
(`sistemaAtivo`, `pedidos`, `proximoId`, `timersExpiracao`) become a
`SystemState` record; each socket event handler becomes a function
`SystemState → … → SystemState × List Emission`, where an `Emission`
records what the handler sent (`socket.emit erro.operacao` to the caller
only, or `io.emit` broadcasts).  Timestamps (`new Date()…`) and socket
ids are abstracted as `Nat` parameters.  The 30-second expiration timer
callback becomes an explicit `timerFire` action that can only have an
effect while the order id still has a live handle in `timersExpiracao`
(in JS, `clearTimeout` prevents the callback from ever running, and a
`setTimeout` callback runs at most once).
-/

namespace Pedidos

/-- Order status, one constructor per status string of `server.js`. -/
inductive Status
  | pendente
  | preparando
  | pronto
  | entregue
  | cancelado
  | expirado
deriving DecidableEq, Repr

/-- An order record, `novoPedido` of `pedido.criar` plus the timestamp
fields added later by the transition handlers (`prontoEm`,
`canceladoEm`, `entregueEm`), absent until the transition happens. -/
structure Pedido where
  id : Nat
  cliente : String
  itens : String
  status : Status
  criadoEm : Nat
  socketId : Nat
  prontoEm : Option Nat
  canceladoEm : Option Nat
  entregueEm : Option Nat
deriving DecidableEq, Repr

/-- The process-wide mutable state of `server.js`: the active flag, the
order list, the id counter, and the ids holding a live expiration-timer
handle in the `timersExpiracao` map. -/
structure SystemState where
  sistemaAtivo : Bool
  pedidos : List Pedido
  proximoId : Nat
  timersExpiracao : List Nat
deriving DecidableEq, Repr

/-- State at process start: `sistemaAtivo = false`, `pedidos = []`,
`proximoId = 1`, no timers. -/
def initialState : SystemState :=
  { sistemaAtivo := false, pedidos := [], proximoId := 1, timersExpiracao := [] }

/-- What a handler emits: `erroOperacao` is `socket.emit('erro.operacao', …)`
to the calling connection only; `broadcast` is `io.emit(event, payload)`
to every connection, carrying the order when the event has one. -/
inductive Emission
  | erroOperacao (mensagem : String)
  | broadcast (event : String) (payload : Option Pedido)
deriving DecidableEq, Repr

/-- Payload of `pedido.criar`: in JS, `dados.cliente` / `dados.itens` may
be absent (`none`) or any string. -/
structure Dados where
  cliente : Option String
  itens : Option String
deriving DecidableEq, Repr

/-- JS truthiness test `!dados.campo` for a string field: falsy when the
field is absent (undefined) or the empty string. -/
def jsFalsy : Option String → Bool
  | none => true
  | some s => s == ""

/-- JS `String.prototype.trim()`: strip leading and trailing whitespace
(written by structural recursion over the character list so it reduces
in the kernel). -/
def jsTrim (s : String) : String :=
  String.mk
    (((s.data.dropWhile Char.isWhitespace).reverse.dropWhile
        Char.isWhitespace).reverse)

/-- Lookup `pedidos.find(p => p.id === pedidoId)`. -/
def findPedido (pedidos : List Pedido) (pedidoId : Nat) : Option Pedido :=
  pedidos.find? (fun p => p.id == pedidoId)

/-- In-place mutation of the order found by `pedidos.find`: rewrite the
first order with the given id using `f`, leave the rest alone. -/
def updateFirst (pedidos : List Pedido) (pedidoId : Nat) (f : Pedido → Pedido) :
    List Pedido :=
  match pedidos with
  | [] => []
  | p :: ps =>
      if p.id == pedidoId then f p :: ps else p :: updateFirst ps pedidoId f

/-- Function `limparTimer`: `clearTimeout` + delete the map entry for the id. -/
def limparTimer (pedidoId : Nat) (timers : List Nat) : List Nat :=
  timers.filter (fun t => t ≠ pedidoId)

/-- Handler of `sistema.iniciar`: set the flag, broadcast `sistema.iniciado`. -/
def sistemaIniciar (st : SystemState) : SystemState × List Emission :=
  ({ st with sistemaAtivo := true }, [.broadcast "sistema.iniciado" none])

/-- The order record `novoPedido` built by `pedido.criar` for the next
free id: status `pendente`, trimmed fields, later timestamps absent. -/
def novoPedido (dados : Dados) (pid socketId agora : Nat) : Pedido :=
  { id := pid
    cliente := jsTrim (dados.cliente.getD "")
    itens := jsTrim (dados.itens.getD "")
    status := .pendente
    criadoEm := agora
    socketId := socketId
    prontoEm := none
    canceladoEm := none
    entregueEm := none }

/-- Handler of `pedido.criar` (`server.js` lines 61-110): reject when the
system is inactive, reject when `cliente` or `itens` is JS-falsy,
otherwise append the new pending order, increment the counter, broadcast
`pedido.criado`, and store an expiration-timer handle for the new id. -/
def pedidoCriar (st : SystemState) (dados : Dados) (socketId agora : Nat) :
    SystemState × List Emission :=
  if !st.sistemaAtivo then
    (st, [.erroOperacao "Sistema não está ativo!"])
  else if jsFalsy dados.cliente || jsFalsy dados.itens then
    (st, [.erroOperacao "Dados inválidos! Cliente e itens são obrigatórios."])
  else
    let novo := novoPedido dados st.proximoId socketId agora
    ({ st with
        pedidos := st.pedidos ++ [novo]
        proximoId := st.proximoId + 1
        timersExpiracao := st.timersExpiracao ++ [st.proximoId] },
     [.broadcast "pedido.criado" (some novo)])

/-- The expiration-timer callback body (`server.js` lines 94-106): if the
order still exists and is still pending, mark it expired, broadcast
`pedido.expirado`, and drop the timer handle; otherwise do nothing. -/
def timerCallback (st : SystemState) (pedidoId : Nat) :
    SystemState × List Emission :=
  match findPedido st.pedidos pedidoId with
  | some pedido =>
      if pedido.status = .pendente then
        let pedidos' := updateFirst st.pedidos pedidoId
          (fun p => { p with status := .expirado })
        ({ st with
            pedidos := pedidos'
            timersExpiracao := st.timersExpiracao.filter (fun t => t ≠ pedidoId) },
         [.broadcast "pedido.expirado"
            (findPedido pedidos' pedidoId)])
      else (st, [])
  | none => (st, [])

/-- The timer can only fire while its handle is live (in JS, `clearTimeout`
prevents the callback from running at all, and a one-shot timer runs at
most once); a fire without a live handle cannot occur, so it is a no-op. -/
def timerFireStep (st : SystemState) (pedidoId : Nat) :
    SystemState × List Emission :=
  if pedidoId ∈ st.timersExpiracao then timerCallback st pedidoId else (st, [])

/-- Handler of `pedido.aceitar` (`server.js` lines 115-140). -/
def pedidoAceitar (st : SystemState) (pedidoId : Nat) :
    SystemState × List Emission :=
  match findPedido st.pedidos pedidoId with
  | none => (st, [.erroOperacao "Pedido não encontrado!"])
  | some pedido =>
      if pedido.status ≠ .pendente then
        (st, [.erroOperacao "Apenas pedidos pendentes podem ser aceitos!"])
      else
        let pedidos' := updateFirst st.pedidos pedidoId
          (fun p => { p with status := .preparando })
        ({ st with
            pedidos := pedidos'
            timersExpiracao := limparTimer pedidoId st.timersExpiracao },
         [.broadcast "pedido.aceito" (findPedido pedidos' pedidoId)])

/-- Handler of `pedido.finalizar` (`server.js` lines 145-168). -/
def pedidoFinalizar (st : SystemState) (pedidoId agora : Nat) :
    SystemState × List Emission :=
  match findPedido st.pedidos pedidoId with
  | none => (st, [.erroOperacao "Pedido não encontrado!"])
  | some pedido =>
      if pedido.status ≠ .preparando then
        (st, [.erroOperacao "Apenas pedidos em preparo podem ser finalizados!"])
      else
        let pedidos' := updateFirst st.pedidos pedidoId
          (fun p => { p with status := .pronto, prontoEm := some agora })
        ({ st with pedidos := pedidos' },
         [.broadcast "pedido.finalizado" (findPedido pedidos' pedidoId)])

/-- Handler of `pedido.cancelar` (`server.js` lines 173-199): rejected only
when the status is already `entregue` or `cancelado`. -/
def pedidoCancelar (st : SystemState) (pedidoId agora : Nat) :
    SystemState × List Emission :=
  match findPedido st.pedidos pedidoId with
  | none => (st, [.erroOperacao "Pedido não encontrado!"])
  | some pedido =>
      if pedido.status = .entregue ∨ pedido.status = .cancelado then
        (st, [.erroOperacao "Este pedido não pode ser cancelado!"])
      else
        let pedidos' := updateFirst st.pedidos pedidoId
          (fun p => { p with status := .cancelado, canceladoEm := some agora })
        ({ st with
            pedidos := pedidos'
            timersExpiracao := limparTimer pedidoId st.timersExpiracao },
         [.broadcast "pedido.cancelado" (findPedido pedidos' pedidoId)])

/-- Handler of `pedido.entregar` (`server.js` lines 204-227). -/
def pedidoEntregar (st : SystemState) (pedidoId agora : Nat) :
    SystemState × List Emission :=
  match findPedido st.pedidos pedidoId with
  | none => (st, [.erroOperacao "Pedido não encontrado!"])
  | some pedido =>
      if pedido.status ≠ .pronto then
        (st, [.erroOperacao "Apenas pedidos prontos podem ser entregues!"])
      else
        let pedidos' := updateFirst st.pedidos pedidoId
          (fun p => { p with status := .entregue, entregueEm := some agora })
        ({ st with pedidos := pedidos' },
         [.broadcast "pedido.entregue" (findPedido pedidos' pedidoId)])

/-- Handler of `sistema.reset` (`server.js` lines 232-248): clear every
timer, empty the order list, restore `proximoId` to 1; the active flag
is untouched. -/
def sistemaReset (st : SystemState) : SystemState × List Emission :=
  ({ st with pedidos := [], proximoId := 1, timersExpiracao := [] },
   [.broadcast "sistema.resetado" none])

/-- One incoming event of the single-threaded event loop, with its
payload; `timerFire` is the expiration callback being scheduled to run. -/
inductive Action
  | iniciar
  | criar (dados : Dados) (socketId agora : Nat)
  | aceitar (pedidoId : Nat)
  | finalizar (pedidoId agora : Nat)
  | cancelar (pedidoId agora : Nat)
  | entregar (pedidoId agora : Nat)
  | timerFire (pedidoId : Nat)
  | reset
deriving DecidableEq, Repr

/-- Dispatch one action to its handler. -/
def step (st : SystemState) : Action → SystemState × List Emission
  | .iniciar => sistemaIniciar st
  | .criar dados socketId agora => pedidoCriar st dados socketId agora
  | .aceitar pedidoId => pedidoAceitar st pedidoId
  | .finalizar pedidoId agora => pedidoFinalizar st pedidoId agora
  | .cancelar pedidoId agora => pedidoCancelar st pedidoId agora
  | .entregar pedidoId agora => pedidoEntregar st pedidoId agora
  | .timerFire pedidoId => timerFireStep st pedidoId
  | .reset => sistemaReset st

/-- State after one action, emissions dropped. -/
def stepState (st : SystemState) (a : Action) : SystemState :=
  (step st a).1

/-- Emissions of one action. -/
def stepEmissions (st : SystemState) (a : Action) : List Emission :=
  (step st a).2

/-- Run a sequence of actions from a state. -/
def runState (st : SystemState) : List Action → SystemState
  | [] => st
  | a :: rest => runState (stepState st a) rest

/-- All emissions produced while running a sequence of actions. -/
def runEmissions (st : SystemState) : List Action → List Emission
  | [] => []
  | a :: rest => stepEmissions st a ++ runEmissions (stepState st a) rest

/-- A state the process can actually be in: produced from the initial
state by some sequence of events. -/
def Reachable (st : SystemState) : Prop :=
  ∃ acts : List Action, runState initialState acts = st

/-- Status of the order with the given id, `none` when no such order. -/
def statusOf (st : SystemState) (pedidoId : Nat) : Option Status :=
  (findPedido st.pedidos pedidoId).map Pedido.status

/-- Modelled from the spec: the directed edges of the section-4 state
machine table (pending→preparing, pending→expired, pending→canceled,
preparing→ready, preparing→canceled, ready→delivered, ready→canceled).
Written from the spec's words, to compare with what the code does. -/
def specEdge : Status → Status → Bool
  | .pendente, .preparando => true
  | .pendente, .expirado => true
  | .pendente, .cancelado => true
  | .preparando, .pronto => true
  | .preparando, .cancelado => true
  | .pronto, .entregue => true
  | .pronto, .cancelado => true
  | _, _ => false

/-- The status transitions the code actually performs: the section-4
table plus the expired→canceled edge that `pedido.cancelar` allows
(it only rejects `entregue` and `cancelado`). -/
def codeEdge (s s' : Status) : Bool :=
  specEdge s s' || (s == .expirado && s' == .cancelado)

/-- Invariant tying the three mutable pieces together: every stored id
is below `proximoId`, the stored ids are strictly increasing, and every
live timer handle belongs to an order that is still pending. -/
def Inv (st : SystemState) : Prop :=
  (∀ i ∈ st.pedidos.map Pedido.id, i < st.proximoId) ∧
  List.Chain' (· < ·) (st.pedidos.map Pedido.id) ∧
  (∀ pid ∈ st.timersExpiracao, statusOf st pid = some .pendente)

/-- Checks that the create payload passes the code's validation:
both fields present and JS-truthy. -/
def dadosValidos (dados : Dados) : Bool :=
  !(jsFalsy dados.cliente || jsFalsy dados.itens)

/-- True for the actions whose handler reads `sistemaAtivo`: only
`pedido.criar` does. -/
def checksFlag : Action → Bool
  | .criar _ _ _ => true
  | _ => false

/-- Fields written once by `pedido.criar` and never touched again. -/
def sameCore (p q : Pedido) : Prop :=
  q.id = p.id ∧ q.cliente = p.cliente ∧ q.itens = p.itens ∧
  q.criadoEm = p.criadoEm ∧ q.socketId = p.socketId

/-- Statuses of an order that has left `pendente` and is not `expirado`:
the statuses reached by accepting or canceling. -/
def leftPending (s : Status) : Prop :=
  s ≠ .pendente ∧ s ≠ .expirado

/-- Frame condition of an action: every stored order is related to its
new version by `R` (position by position), and the action touches
neither the active flag nor the id counter. -/
def frameOk (st : SystemState) (a : Action) (R : Pedido → Pedido → Prop) :
    Prop :=
  List.Forall₂ R st.pedidos (stepState st a).pedidos ∧
  (stepState st a).sistemaAtivo = st.sistemaAtivo ∧
  (stepState st a).proximoId = st.proximoId

/-- Relation allowing only the listed fields of an order to change:
the creation-time fields of `sameCore` always stay, and each timestamp
stays unless the flag for it is set. -/
def changesOnly (ready canceled delivered : Bool) (p q : Pedido) : Prop :=
  sameCore p q ∧
  (ready = false → q.prontoEm = p.prontoEm) ∧
  (canceled = false → q.canceladoEm = p.canceladoEm) ∧
  (delivered = false → q.entregueEm = p.entregueEm)

/-! ### Basic lemmas about the list primitives -/

theorem findPedido_cons (p : Pedido) (l : List Pedido) (pid : Nat) :
    findPedido (p :: l) pid = if p.id = pid then some p else findPedido l pid := by
  by_cases h : p.id = pid <;> simp [findPedido, List.find?_cons, h]

theorem findPedido_append (l₁ l₂ : List Pedido) (pid : Nat) :
    findPedido (l₁ ++ l₂) pid = (findPedido l₁ pid).or (findPedido l₂ pid) := by
  simp [findPedido, List.find?_append]

theorem findPedido_mem (l : List Pedido) (pid : Nat) (q : Pedido)
    (h : findPedido l pid = some q) : q ∈ l ∧ q.id = pid := by
  refine ⟨List.mem_of_find?_eq_some h, ?_⟩
  have := List.find?_some h
  simpa using this

theorem updateFirst_cons (p : Pedido) (ps : List Pedido) (pid : Nat)
    (f : Pedido → Pedido) :
    updateFirst (p :: ps) pid f =
      if p.id = pid then f p :: ps else p :: updateFirst ps pid f := by
  by_cases h : p.id = pid <;> simp [updateFirst, h]

theorem findPedido_updateFirst_ne (l : List Pedido) (pid pid' : Nat)
    (f : Pedido → Pedido) (hf : ∀ p, (f p).id = p.id) (hne : pid' ≠ pid) :
    findPedido (updateFirst l pid f) pid' = findPedido l pid' := by
  induction l with
  | nil => rfl
  | cons p ps ih =>
    rw [updateFirst_cons]
    by_cases h : p.id = pid
    · rw [if_pos h, findPedido_cons, findPedido_cons, hf p, h,
        if_neg (Ne.symm hne), if_neg (Ne.symm hne)]
    · rw [if_neg h, findPedido_cons, findPedido_cons, ih]

theorem findPedido_updateFirst_self (l : List Pedido) (pid : Nat) (q : Pedido)
    (f : Pedido → Pedido) (hf : ∀ p, (f p).id = p.id)
    (h : findPedido l pid = some q) :
    findPedido (updateFirst l pid f) pid = some (f q) := by
  induction l with
  | nil => simp [findPedido] at h
  | cons p ps ih =>
    rw [findPedido_cons] at h
    rw [updateFirst_cons]
    by_cases hp : p.id = pid
    · rw [if_pos hp] at h
      rw [if_pos hp, findPedido_cons, hf p, if_pos hp]
      simp_all
    · rw [if_neg hp] at h
      rw [if_neg hp, findPedido_cons, if_neg hp]
      exact ih h

theorem updateFirst_map_id (l : List Pedido) (pid : Nat)
    (f : Pedido → Pedido) (hf : ∀ p, (f p).id = p.id) :
    (updateFirst l pid f).map Pedido.id = l.map Pedido.id := by
  induction l with
  | nil => rfl
  | cons p ps ih =>
    rw [updateFirst_cons]
    by_cases h : p.id = pid
    · simp [h, hf p]
    · simp [h, ih]

theorem updateFirst_forall₂ {R : Pedido → Pedido → Prop} (l : List Pedido)
    (pid : Nat) (f : Pedido → Pedido)
    (hrefl : ∀ p, R p p) (hfr : ∀ p, R p (f p)) :
    List.Forall₂ R l (updateFirst l pid f) := by
  induction l with
  | nil => exact List.Forall₂.nil
  | cons p ps ih =>
    rw [updateFirst_cons]
    by_cases h : p.id = pid
    · rw [if_pos h]
      exact List.Forall₂.cons (hfr p) (List.forall₂_same.mpr fun x _ => hrefl x)
    · rw [if_neg h]
      exact List.Forall₂.cons (hrefl p) ih

theorem statusOf_mk (b : Bool) (l : List Pedido) (n : Nat) (ts : List Nat)
    (pid : Nat) :
    statusOf ⟨b, l, n, ts⟩ pid = (findPedido l pid).map Pedido.status := rfl

/-! ### Characterizations of each handler under its guard -/

theorem pedidoCriar_inactive (st : SystemState) (dados : Dados)
    (sid agora : Nat) (h : st.sistemaAtivo = false) :
    pedidoCriar st dados sid agora =
      (st, [.erroOperacao "Sistema não está ativo!"]) := by
  simp [pedidoCriar, h]

theorem pedidoCriar_invalid (st : SystemState) (dados : Dados)
    (sid agora : Nat) (h : st.sistemaAtivo = true)
    (hv : dadosValidos dados = false) :
    pedidoCriar st dados sid agora =
      (st, [.erroOperacao "Dados inválidos! Cliente e itens são obrigatórios."]) := by
  have hv' : (jsFalsy dados.cliente || jsFalsy dados.itens) = true := by
    rcases hb : jsFalsy dados.cliente <;> rcases hi : jsFalsy dados.itens <;>
      simp_all [dadosValidos]
  simp [pedidoCriar, h, hv']

theorem pedidoCriar_valid (st : SystemState) (dados : Dados)
    (sid agora : Nat) (h : st.sistemaAtivo = true)
    (hv : dadosValidos dados = true) :
    pedidoCriar st dados sid agora =
      ({ st with
          pedidos := st.pedidos ++ [novoPedido dados st.proximoId sid agora]
          proximoId := st.proximoId + 1
          timersExpiracao := st.timersExpiracao ++ [st.proximoId] },
       [.broadcast "pedido.criado"
          (some (novoPedido dados st.proximoId sid agora))]) := by
  have hv' : (jsFalsy dados.cliente || jsFalsy dados.itens) = false := by
    simpa [dadosValidos] using hv
  simp [pedidoCriar, h, hv']

theorem pedidoAceitar_not_found (st : SystemState) (pid : Nat)
    (h : findPedido st.pedidos pid = none) :
    pedidoAceitar st pid = (st, [.erroOperacao "Pedido não encontrado!"]) := by
  simp [pedidoAceitar, h]

theorem pedidoAceitar_wrong_status (st : SystemState) (pid : Nat) (q : Pedido)
    (h : findPedido st.pedidos pid = some q) (hs : q.status ≠ .pendente) :
    pedidoAceitar st pid =
      (st, [.erroOperacao "Apenas pedidos pendentes podem ser aceitos!"]) := by
  simp [pedidoAceitar, h, hs]

theorem pedidoAceitar_ok (st : SystemState) (pid : Nat) (q : Pedido)
    (h : findPedido st.pedidos pid = some q) (hs : q.status = .pendente) :
    pedidoAceitar st pid =
      ({ st with
          pedidos := updateFirst st.pedidos pid
            (fun p => { p with status := .preparando })
          timersExpiracao := limparTimer pid st.timersExpiracao },
       [.broadcast "pedido.aceito"
          (findPedido (updateFirst st.pedidos pid
            (fun p => { p with status := .preparando })) pid)]) := by
  simp [pedidoAceitar, h, hs]

theorem pedidoFinalizar_not_found (st : SystemState) (pid agora : Nat)
    (h : findPedido st.pedidos pid = none) :
    pedidoFinalizar st pid agora =
      (st, [.erroOperacao "Pedido não encontrado!"]) := by
  simp [pedidoFinalizar, h]

theorem pedidoFinalizar_wrong_status (st : SystemState) (pid agora : Nat)
    (q : Pedido) (h : findPedido st.pedidos pid = some q)
    (hs : q.status ≠ .preparando) :
    pedidoFinalizar st pid agora =
      (st, [.erroOperacao "Apenas pedidos em preparo podem ser finalizados!"]) := by
  simp [pedidoFinalizar, h, hs]

theorem pedidoFinalizar_ok (st : SystemState) (pid agora : Nat) (q : Pedido)
    (h : findPedido st.pedidos pid = some q) (hs : q.status = .preparando) :
    pedidoFinalizar st pid agora =
      ({ st with
          pedidos := updateFirst st.pedidos pid
            (fun p => { p with status := .pronto, prontoEm := some agora }) },
       [.broadcast "pedido.finalizado"
          (findPedido (updateFirst st.pedidos pid
            (fun p => { p with status := .pronto, prontoEm := some agora })) pid)]) := by
  simp [pedidoFinalizar, h, hs]

theorem pedidoCancelar_not_found (st : SystemState) (pid agora : Nat)
    (h : findPedido st.pedidos pid = none) :
    pedidoCancelar st pid agora =
      (st, [.erroOperacao "Pedido não encontrado!"]) := by
  simp [pedidoCancelar, h]

theorem pedidoCancelar_blocked (st : SystemState) (pid agora : Nat)
    (q : Pedido) (h : findPedido st.pedidos pid = some q)
    (hs : q.status = .entregue ∨ q.status = .cancelado) :
    pedidoCancelar st pid agora =
      (st, [.erroOperacao "Este pedido não pode ser cancelado!"]) := by
  simp [pedidoCancelar, h, hs]

theorem pedidoCancelar_ok (st : SystemState) (pid agora : Nat) (q : Pedido)
    (h : findPedido st.pedidos pid = some q)
    (hs : ¬(q.status = .entregue ∨ q.status = .cancelado)) :
    pedidoCancelar st pid agora =
      ({ st with
          pedidos := updateFirst st.pedidos pid
            (fun p => { p with status := .cancelado, canceladoEm := some agora })
          timersExpiracao := limparTimer pid st.timersExpiracao },
       [.broadcast "pedido.cancelado"
          (findPedido (updateFirst st.pedidos pid
            (fun p => { p with status := .cancelado, canceladoEm := some agora })) pid)]) := by
  simp only [pedidoCancelar, h, if_neg hs]

theorem pedidoEntregar_not_found (st : SystemState) (pid agora : Nat)
    (h : findPedido st.pedidos pid = none) :
    pedidoEntregar st pid agora =
      (st, [.erroOperacao "Pedido não encontrado!"]) := by
  simp [pedidoEntregar, h]

theorem pedidoEntregar_wrong_status (st : SystemState) (pid agora : Nat)
    (q : Pedido) (h : findPedido st.pedidos pid = some q)
    (hs : q.status ≠ .pronto) :
    pedidoEntregar st pid agora =
      (st, [.erroOperacao "Apenas pedidos prontos podem ser entregues!"]) := by
  simp [pedidoEntregar, h, hs]

theorem pedidoEntregar_ok (st : SystemState) (pid agora : Nat) (q : Pedido)
    (h : findPedido st.pedidos pid = some q) (hs : q.status = .pronto) :
    pedidoEntregar st pid agora =
      ({ st with
          pedidos := updateFirst st.pedidos pid
            (fun p => { p with status := .entregue, entregueEm := some agora }) },
       [.broadcast "pedido.entregue"
          (findPedido (updateFirst st.pedidos pid
            (fun p => { p with status := .entregue, entregueEm := some agora })) pid)]) := by
  simp [pedidoEntregar, h, hs]

theorem timerFireStep_dead (st : SystemState) (pid : Nat)
    (h : pid ∉ st.timersExpiracao) :
    timerFireStep st pid = (st, []) := by
  simp [timerFireStep, h]

theorem timerCallback_not_found (st : SystemState) (pid : Nat)
    (h : findPedido st.pedidos pid = none) :
    timerCallback st pid = (st, []) := by
  simp [timerCallback, h]

theorem timerCallback_not_pending (st : SystemState) (pid : Nat) (q : Pedido)
    (h : findPedido st.pedidos pid = some q) (hs : q.status ≠ .pendente) :
    timerCallback st pid = (st, []) := by
  simp [timerCallback, h, hs]

theorem timerCallback_pending (st : SystemState) (pid : Nat) (q : Pedido)
    (h : findPedido st.pedidos pid = some q) (hs : q.status = .pendente) :
    timerCallback st pid =
      ({ st with
          pedidos := updateFirst st.pedidos pid
            (fun p => { p with status := .expirado })
          timersExpiracao := st.timersExpiracao.filter (fun t => t ≠ pid) },
       [.broadcast "pedido.expirado"
          (findPedido (updateFirst st.pedidos pid
            (fun p => { p with status := .expirado })) pid)]) := by
  simp [timerCallback, h, hs]

/-! ### The per-step status-change lemma -/

theorem edge_of_same {s s' : Status} (h : some s = some s') (hne : s ≠ s') :
    codeEdge s s' = true :=
  (hne (Option.some.inj h)).elim

theorem status_step_edge (st : SystemState) (a : Action) (pid : Nat)
    (s s' : Status) (h : statusOf st pid = some s)
    (h' : statusOf (stepState st a) pid = some s') (hne : s ≠ s') :
    codeEdge s s' = true := by
  cases a with
  | iniciar =>
    simp only [stepState, step, sistemaIniciar, statusOf] at h'
    rw [statusOf] at h
    rw [h] at h'
    exact edge_of_same h' hne
  | criar dados sid agora =>
    rcases hA : st.sistemaAtivo with _ | _
    · rw [stepState, step, pedidoCriar_inactive st dados sid agora hA, h] at h'
      exact edge_of_same h' hne
    · rcases hv : dadosValidos dados with _ | _
      · rw [stepState, step, pedidoCriar_invalid st dados sid agora hA hv, h] at h'
        exact edge_of_same h' hne
      · rw [stepState, step, pedidoCriar_valid st dados sid agora hA hv] at h'
        rw [statusOf] at h h'
        simp only at h'
        rcases hfind : findPedido st.pedidos pid with _ | q
        · rw [hfind] at h
          exact absurd h (by simp)
        · rw [findPedido_append, hfind] at h'
          simp only [Option.or] at h'
          rw [hfind] at h
          rw [h] at h'
          exact edge_of_same h' hne
  | aceitar pid' =>
    rcases hfind : findPedido st.pedidos pid' with _ | q
    · rw [stepState, step, pedidoAceitar_not_found st pid' hfind, h] at h'
      exact edge_of_same h' hne
    · by_cases hq : q.status = .pendente
      · rw [stepState, step, pedidoAceitar_ok st pid' q hfind hq] at h'
        by_cases hp : pid = pid'
        · subst hp
          rw [statusOf] at h h'
          simp only at h'
          rw [findPedido_updateFirst_self st.pedidos pid q _ (by intro p; rfl) hfind]
            at h'
          rw [hfind] at h
          simp only [Option.map_some'] at h h'
          have hs : s = q.status := (Option.some.inj h).symm
          have hs' : s' = Status.preparando := (Option.some.inj h').symm
          rw [hs, hs', hq]
          rfl
        · rw [statusOf] at h h'
          simp only at h'
          rw [findPedido_updateFirst_ne st.pedidos pid' pid _ (by intro p; rfl) hp]
            at h'
          rw [h] at h'
          exact edge_of_same h' hne
      · rw [stepState, step, pedidoAceitar_wrong_status st pid' q hfind hq, h]
          at h'
        exact edge_of_same h' hne
  | finalizar pid' agora =>
    rcases hfind : findPedido st.pedidos pid' with _ | q
    · rw [stepState, step, pedidoFinalizar_not_found st pid' agora hfind, h] at h'
      exact edge_of_same h' hne
    · by_cases hq : q.status = .preparando
      · rw [stepState, step, pedidoFinalizar_ok st pid' agora q hfind hq] at h'
        by_cases hp : pid = pid'
        · subst hp
          rw [statusOf] at h h'
          simp only at h'
          rw [findPedido_updateFirst_self st.pedidos pid q _ (by intro p; rfl) hfind]
            at h'
          rw [hfind] at h
          simp only [Option.map_some'] at h h'
          have hs : s = q.status := (Option.some.inj h).symm
          have hs' : s' = Status.pronto := (Option.some.inj h').symm
          rw [hs, hs', hq]
          rfl
        · rw [statusOf] at h h'
          simp only at h'
          rw [findPedido_updateFirst_ne st.pedidos pid' pid _ (by intro p; rfl) hp]
            at h'
          rw [h] at h'
          exact edge_of_same h' hne
      · rw [stepState, step,
          pedidoFinalizar_wrong_status st pid' agora q hfind hq, h] at h'
        exact edge_of_same h' hne
  | cancelar pid' agora =>
    rcases hfind : findPedido st.pedidos pid' with _ | q
    · rw [stepState, step, pedidoCancelar_not_found st pid' agora hfind, h] at h'
      exact edge_of_same h' hne
    · by_cases hq : q.status = .entregue ∨ q.status = .cancelado
      · rw [stepState, step, pedidoCancelar_blocked st pid' agora q hfind hq, h]
          at h'
        exact edge_of_same h' hne
      · rw [stepState, step, pedidoCancelar_ok st pid' agora q hfind hq] at h'
        by_cases hp : pid = pid'
        · subst hp
          rw [statusOf] at h h'
          simp only at h'
          rw [findPedido_updateFirst_self st.pedidos pid q _ (by intro p; rfl) hfind]
            at h'
          rw [hfind] at h
          simp only [Option.map_some'] at h h'
          have hs : s = q.status := (Option.some.inj h).symm
          have hs' : s' = Status.cancelado := (Option.some.inj h').symm
          rw [hs, hs']
          rcases hqs : q.status <;> simp_all [codeEdge, specEdge]
        · rw [statusOf] at h h'
          simp only at h'
          rw [findPedido_updateFirst_ne st.pedidos pid' pid _ (by intro p; rfl) hp]
            at h'
          rw [h] at h'
          exact edge_of_same h' hne
  | entregar pid' agora =>
    rcases hfind : findPedido st.pedidos pid' with _ | q
    · rw [stepState, step, pedidoEntregar_not_found st pid' agora hfind, h] at h'
      exact edge_of_same h' hne
    · by_cases hq : q.status = .pronto
      · rw [stepState, step, pedidoEntregar_ok st pid' agora q hfind hq] at h'
        by_cases hp : pid = pid'
        · subst hp
          rw [statusOf] at h h'
          simp only at h'
          rw [findPedido_updateFirst_self st.pedidos pid q _ (by intro p; rfl) hfind]
            at h'
          rw [hfind] at h
          simp only [Option.map_some'] at h h'
          have hs : s = q.status := (Option.some.inj h).symm
          have hs' : s' = Status.entregue := (Option.some.inj h').symm
          rw [hs, hs', hq]
          rfl
        · rw [statusOf] at h h'
          simp only at h'
          rw [findPedido_updateFirst_ne st.pedidos pid' pid _ (by intro p; rfl) hp]
            at h'
          rw [h] at h'
          exact edge_of_same h' hne
      · rw [stepState, step,
          pedidoEntregar_wrong_status st pid' agora q hfind hq, h] at h'
        exact edge_of_same h' hne
  | timerFire pid' =>
    by_cases hmem : pid' ∈ st.timersExpiracao
    · rcases hfind : findPedido st.pedidos pid' with _ | q
      · rw [stepState, step, timerFireStep, if_pos hmem,
          timerCallback_not_found st pid' hfind, h] at h'
        exact edge_of_same h' hne
      · by_cases hq : q.status = .pendente
        · rw [stepState, step, timerFireStep, if_pos hmem,
            timerCallback_pending st pid' q hfind hq] at h'
          by_cases hp : pid = pid'
          · subst hp
            rw [statusOf] at h h'
            simp only at h'
            rw [findPedido_updateFirst_self st.pedidos pid q _ (by intro p; rfl)
              hfind] at h'
            rw [hfind] at h
            simp only [Option.map_some'] at h h'
            have hs : s = q.status := (Option.some.inj h).symm
            have hs' : s' = Status.expirado := (Option.some.inj h').symm
            rw [hs, hs', hq]
            rfl
          · rw [statusOf] at h h'
            simp only at h'
            rw [findPedido_updateFirst_ne st.pedidos pid' pid _ (by intro p; rfl) hp]
              at h'
            rw [h] at h'
            exact edge_of_same h' hne
        · rw [stepState, step, timerFireStep, if_pos hmem,
            timerCallback_not_pending st pid' q hfind hq, h] at h'
          exact edge_of_same h' hne
    · rw [stepState, step, timerFireStep_dead st pid' hmem, h] at h'
      exact edge_of_same h' hne
  | reset =>
    simp [stepState, step, sistemaReset, statusOf, findPedido] at h'

/-! ### The reachability invariant -/

theorem chain'_lt_append_singleton (l : List Nat) (n : Nat)
    (hl : List.Chain' (· < ·) l) (hn : ∀ i ∈ l, i < n) :
    List.Chain' (· < ·) (l ++ [n]) := by
  induction l with
  | nil => simp
  | cons a l ih =>
    rcases List.chain'_cons'.mp hl with ⟨hhead, htail⟩
    rw [List.cons_append]
    refine List.chain'_cons'.mpr
      ⟨?_, ih htail fun i hi => hn i (List.mem_cons_of_mem a hi)⟩
    intro x hx
    cases l with
    | nil =>
      simp only [List.nil_append, List.head?_cons, Option.mem_def,
        Option.some.injEq] at hx
      subst hx
      exact hn a (List.mem_cons_self a [])
    | cons b l' =>
      simp only [List.cons_append, List.head?_cons, Option.mem_def,
        Option.some.injEq] at hx
      subst hx
      exact hhead b (by simp)

theorem findPedido_eq_none (l : List Pedido) (pid : Nat)
    (h : ∀ p ∈ l, p.id ≠ pid) : findPedido l pid = none := by
  rw [findPedido, List.find?_eq_none]
  intro p hp
  simpa using h p hp

theorem inv_initial : Inv initialState := by
  refine ⟨?_, ?_, ?_⟩ <;> simp [initialState]

theorem inv_step (st : SystemState) (a : Action) (h : Inv st) :
    Inv (stepState st a) := by
  obtain ⟨h1, h2, h3⟩ := h
  cases a with
  | iniciar => exact ⟨h1, h2, h3⟩
  | criar dados sid agora =>
    rcases hA : st.sistemaAtivo with _ | _
    · rw [stepState, step, pedidoCriar_inactive st dados sid agora hA]
      exact ⟨h1, h2, h3⟩
    · rcases hv : dadosValidos dados with _ | _
      · rw [stepState, step, pedidoCriar_invalid st dados sid agora hA hv]
        exact ⟨h1, h2, h3⟩
      · rw [stepState, step, pedidoCriar_valid st dados sid agora hA hv]
        have hmapnew : (st.pedidos ++ [novoPedido dados st.proximoId sid agora]).map
            Pedido.id = st.pedidos.map Pedido.id ++ [st.proximoId] := by
          simp [novoPedido]
        refine ⟨?_, ?_, ?_⟩
        · intro i hi
          dsimp only at hi ⊢
          rw [hmapnew, List.mem_append, List.mem_singleton] at hi
          rcases hi with hi | rfl
          · exact Nat.lt_succ_of_lt (h1 i hi)
          · exact Nat.lt_succ_self _
        · dsimp only
          rw [hmapnew]
          exact chain'_lt_append_singleton _ _ h2 h1
        · intro pid hpid
          dsimp only at hpid
          rw [List.mem_append, List.mem_singleton] at hpid
          rcases hpid with hpid | rfl
          · rcases Option.map_eq_some'.mp (h3 pid hpid) with ⟨q, hq, hqs⟩
            show (findPedido (st.pedidos ++ [_]) pid).map Pedido.status = _
            rw [findPedido_append, hq]
            simp [Option.or, hqs]
          · have hnone : findPedido st.pedidos st.proximoId = none :=
              findPedido_eq_none _ _ fun p hp =>
                Nat.ne_of_lt (h1 p.id (List.mem_map_of_mem Pedido.id hp))
            show (findPedido (st.pedidos ++ [_]) st.proximoId).map Pedido.status = _
            rw [findPedido_append, hnone]
            simp [Option.or, findPedido_cons, novoPedido]
  | aceitar pid' =>
    rcases hfind : findPedido st.pedidos pid' with _ | q
    · rw [stepState, step, pedidoAceitar_not_found st pid' hfind]
      exact ⟨h1, h2, h3⟩
    · by_cases hq : q.status = .pendente
      · rw [stepState, step, pedidoAceitar_ok st pid' q hfind hq]
        have hmap := updateFirst_map_id st.pedidos pid'
          (fun p => { p with status := .preparando }) (fun p => rfl)
        refine ⟨?_, ?_, ?_⟩
        · intro i hi
          dsimp only at hi ⊢
          rw [hmap] at hi
          exact h1 i hi
        · dsimp only
          rw [hmap]
          exact h2
        · intro pid hpid
          dsimp only at hpid
          rw [limparTimer, List.mem_filter] at hpid
          obtain ⟨hmem, hne⟩ := hpid
          have hne' : pid ≠ pid' := by simpa using hne
          rcases Option.map_eq_some'.mp (h3 pid hmem) with ⟨q', hq', hqs⟩
          show (findPedido (updateFirst st.pedidos pid' _) pid).map Pedido.status = _
          rw [findPedido_updateFirst_ne st.pedidos pid' pid _ (by intro p; rfl) hne',
            hq']
          simp [hqs]
      · rw [stepState, step, pedidoAceitar_wrong_status st pid' q hfind hq]
        exact ⟨h1, h2, h3⟩
  | finalizar pid' agora =>
    rcases hfind : findPedido st.pedidos pid' with _ | q
    · rw [stepState, step, pedidoFinalizar_not_found st pid' agora hfind]
      exact ⟨h1, h2, h3⟩
    · by_cases hq : q.status = .preparando
      · rw [stepState, step, pedidoFinalizar_ok st pid' agora q hfind hq]
        have hmap := updateFirst_map_id st.pedidos pid'
          (fun p => { p with status := .pronto, prontoEm := some agora })
          (fun p => rfl)
        refine ⟨?_, ?_, ?_⟩
        · intro i hi
          dsimp only at hi ⊢
          rw [hmap] at hi
          exact h1 i hi
        · dsimp only
          rw [hmap]
          exact h2
        · intro pid hpid
          dsimp only at hpid
          by_cases hne' : pid = pid'
          · subst hne'
            have hst := h3 pid hpid
            rw [statusOf, hfind] at hst
            simp only [Option.map_some', Option.some.injEq] at hst
            rw [hst] at hq
            exact absurd hq (by decide)
          · rcases Option.map_eq_some'.mp (h3 pid hpid) with ⟨q', hq', hqs⟩
            show (findPedido (updateFirst st.pedidos pid' _) pid).map Pedido.status = _
            rw [findPedido_updateFirst_ne st.pedidos pid' pid _ (by intro p; rfl)
              hne', hq']
            simp [hqs]
      · rw [stepState, step, pedidoFinalizar_wrong_status st pid' agora q hfind hq]
        exact ⟨h1, h2, h3⟩
  | cancelar pid' agora =>
    rcases hfind : findPedido st.pedidos pid' with _ | q
    · rw [stepState, step, pedidoCancelar_not_found st pid' agora hfind]
      exact ⟨h1, h2, h3⟩
    · by_cases hq : q.status = .entregue ∨ q.status = .cancelado
      · rw [stepState, step, pedidoCancelar_blocked st pid' agora q hfind hq]
        exact ⟨h1, h2, h3⟩
      · rw [stepState, step, pedidoCancelar_ok st pid' agora q hfind hq]
        have hmap := updateFirst_map_id st.pedidos pid'
          (fun p => { p with status := .cancelado, canceladoEm := some agora })
          (fun p => rfl)
        refine ⟨?_, ?_, ?_⟩
        · intro i hi
          dsimp only at hi ⊢
          rw [hmap] at hi
          exact h1 i hi
        · dsimp only
          rw [hmap]
          exact h2
        · intro pid hpid
          dsimp only at hpid
          rw [limparTimer, List.mem_filter] at hpid
          obtain ⟨hmem, hne⟩ := hpid
          have hne' : pid ≠ pid' := by simpa using hne
          rcases Option.map_eq_some'.mp (h3 pid hmem) with ⟨q', hq', hqs⟩
          show (findPedido (updateFirst st.pedidos pid' _) pid).map Pedido.status = _
          rw [findPedido_updateFirst_ne st.pedidos pid' pid _ (by intro p; rfl) hne',
            hq']
          simp [hqs]
  | entregar pid' agora =>
    rcases hfind : findPedido st.pedidos pid' with _ | q
    · rw [stepState, step, pedidoEntregar_not_found st pid' agora hfind]
      exact ⟨h1, h2, h3⟩
    · by_cases hq : q.status = .pronto
      · rw [stepState, step, pedidoEntregar_ok st pid' agora q hfind hq]
        have hmap := updateFirst_map_id st.pedidos pid'
          (fun p => { p with status := .entregue, entregueEm := some agora })
          (fun p => rfl)
        refine ⟨?_, ?_, ?_⟩
        · intro i hi
          dsimp only at hi ⊢
          rw [hmap] at hi
          exact h1 i hi
        · dsimp only
          rw [hmap]
          exact h2
        · intro pid hpid
          dsimp only at hpid
          by_cases hne' : pid = pid'
          · subst hne'
            have hst := h3 pid hpid
            rw [statusOf, hfind] at hst
            simp only [Option.map_some', Option.some.injEq] at hst
            rw [hst] at hq
            exact absurd hq (by decide)
          · rcases Option.map_eq_some'.mp (h3 pid hpid) with ⟨q', hq', hqs⟩
            show (findPedido (updateFirst st.pedidos pid' _) pid).map Pedido.status = _
            rw [findPedido_updateFirst_ne st.pedidos pid' pid _ (by intro p; rfl)
              hne', hq']
            simp [hqs]
      · rw [stepState, step, pedidoEntregar_wrong_status st pid' agora q hfind hq]
        exact ⟨h1, h2, h3⟩
  | timerFire pid' =>
    by_cases hmem : pid' ∈ st.timersExpiracao
    · rcases hfind : findPedido st.pedidos pid' with _ | q
      · rw [stepState, step, timerFireStep, if_pos hmem,
          timerCallback_not_found st pid' hfind]
        exact ⟨h1, h2, h3⟩
      · by_cases hq : q.status = .pendente
        · rw [stepState, step, timerFireStep, if_pos hmem,
            timerCallback_pending st pid' q hfind hq]
          have hmap := updateFirst_map_id st.pedidos pid'
            (fun p => { p with status := .expirado }) (fun p => rfl)
          refine ⟨?_, ?_, ?_⟩
          · intro i hi
            dsimp only at hi ⊢
            rw [hmap] at hi
            exact h1 i hi
          · dsimp only
            rw [hmap]
            exact h2
          · intro pid hpid
            dsimp only at hpid
            rw [List.mem_filter] at hpid
            obtain ⟨hmem2, hne⟩ := hpid
            have hne' : pid ≠ pid' := by simpa using hne
            rcases Option.map_eq_some'.mp (h3 pid hmem2) with ⟨q', hq', hqs⟩
            show (findPedido (updateFirst st.pedidos pid' _) pid).map Pedido.status = _
            rw [findPedido_updateFirst_ne st.pedidos pid' pid _ (by intro p; rfl)
              hne', hq']
            simp [hqs]
        · rw [stepState, step, timerFireStep, if_pos hmem,
            timerCallback_not_pending st pid' q hfind hq]
          exact ⟨h1, h2, h3⟩
    · rw [stepState, step, timerFireStep_dead st pid' hmem]
      exact ⟨h1, h2, h3⟩
  | reset =>
    rw [stepState, step, sistemaReset]
    exact ⟨by simp, by simp, by simp⟩

theorem inv_run (acts : List Action) (s : SystemState) (hs : Inv s) :
    Inv (runState s acts) := by
  induction acts generalizing s with
  | nil => exact hs
  | cons a rest ih => exact ih (stepState s a) (inv_step s a hs)

theorem inv_reachable (st : SystemState) (h : Reachable st) : Inv st := by
  obtain ⟨acts, rfl⟩ := h
  exact inv_run acts initialState inv_initial

/-! ### Preservation of the flag and the counter -/

theorem sistemaAtivo_step_true (st : SystemState) (a : Action)
    (h : st.sistemaAtivo = true) : (stepState st a).sistemaAtivo = true := by
  cases a with
  | iniciar => rfl
  | criar dados sid agora =>
    rw [stepState, step, pedidoCriar]
    split
    · exact h
    · split
      · exact h
      · exact h
  | aceitar pid =>
    rw [stepState, step, pedidoAceitar]
    split
    · exact h
    · split
      · exact h
      · exact h
  | finalizar pid agora =>
    rw [stepState, step, pedidoFinalizar]
    split
    · exact h
    · split
      · exact h
      · exact h
  | cancelar pid agora =>
    rw [stepState, step, pedidoCancelar]
    split
    · exact h
    · split
      · exact h
      · exact h
  | entregar pid agora =>
    rw [stepState, step, pedidoEntregar]
    split
    · exact h
    · split
      · exact h
      · exact h
  | timerFire pid =>
    rw [stepState, step, timerFireStep]
    split
    · rw [timerCallback]
      split
      · split
        · exact h
        · exact h
      · exact h
    · exact h
  | reset => exact h

theorem sistemaAtivo_run_true (st : SystemState) (acts : List Action)
    (h : st.sistemaAtivo = true) : (runState st acts).sistemaAtivo = true := by
  induction acts generalizing st with
  | nil => exact h
  | cons a rest ih => exact ih (stepState st a) (sistemaAtivo_step_true st a h)

theorem proximoId_step_le (st : SystemState) (a : Action) (h : a ≠ .reset) :
    st.proximoId ≤ (stepState st a).proximoId := by
  cases a with
  | iniciar => exact Nat.le_refl _
  | criar dados sid agora =>
    rw [stepState, step, pedidoCriar]
    split
    · exact Nat.le_refl _
    · split
      · exact Nat.le_refl _
      · exact Nat.le_succ _
  | aceitar pid =>
    rw [stepState, step, pedidoAceitar]
    split
    · exact Nat.le_refl _
    · split
      · exact Nat.le_refl _
      · exact Nat.le_refl _
  | finalizar pid agora =>
    rw [stepState, step, pedidoFinalizar]
    split
    · exact Nat.le_refl _
    · split
      · exact Nat.le_refl _
      · exact Nat.le_refl _
  | cancelar pid agora =>
    rw [stepState, step, pedidoCancelar]
    split
    · exact Nat.le_refl _
    · split
      · exact Nat.le_refl _
      · exact Nat.le_refl _
  | entregar pid agora =>
    rw [stepState, step, pedidoEntregar]
    split
    · exact Nat.le_refl _
    · split
      · exact Nat.le_refl _
      · exact Nat.le_refl _
  | timerFire pid =>
    rw [stepState, step, timerFireStep]
    split
    · rw [timerCallback]
      split
      · split
        · exact Nat.le_refl _
        · exact Nat.le_refl _
      · exact Nat.le_refl _
    · exact Nat.le_refl _
  | reset => exact absurd rfl h

theorem proximoId_run_le (st : SystemState) (acts : List Action)
    (h : Action.reset ∉ acts) :
    st.proximoId ≤ (runState st acts).proximoId := by
  induction acts generalizing st with
  | nil => exact Nat.le_refl _
  | cons a rest ih =>
    have ha : a ≠ .reset := by
      rintro rfl
      exact h (List.mem_cons_self _ _)
    exact Nat.le_trans (proximoId_step_le st a ha)
      (ih (stepState st a) fun hm => h (List.mem_cons_of_mem _ hm))

/-! ### How the status of one order evolves along a step -/

theorem statusOf_step_total (st : SystemState) (a : Action) (pid : Nat)
    (s : Status) (h : statusOf st pid = some s) (ha : a ≠ .reset) :
    statusOf (stepState st a) pid = some s ∨
      ∃ s', statusOf (stepState st a) pid = some s' ∧ s ≠ s' ∧
        codeEdge s s' = true := by
  have hsq : ∃ q, findPedido st.pedidos pid = some q ∧ q.status = s := by
    rw [statusOf] at h
    exact Option.map_eq_some'.mp h
  obtain ⟨q0, hq0, hq0s⟩ := hsq
  cases a with
  | iniciar => exact Or.inl h
  | criar dados sid agora =>
    rcases hA : st.sistemaAtivo with _ | _
    · rw [stepState, step, pedidoCriar_inactive st dados sid agora hA]
      exact Or.inl h
    · rcases hv : dadosValidos dados with _ | _
      · rw [stepState, step, pedidoCriar_invalid st dados sid agora hA hv]
        exact Or.inl h
      · rw [stepState, step, pedidoCriar_valid st dados sid agora hA hv]
        left
        show (findPedido (st.pedidos ++ [_]) pid).map Pedido.status = some s
        rw [findPedido_append, hq0]
        simp [Option.or, hq0s]
  | aceitar pid' =>
    rcases hfind : findPedido st.pedidos pid' with _ | q
    · rw [stepState, step, pedidoAceitar_not_found st pid' hfind]
      exact Or.inl h
    · by_cases hq : q.status = .pendente
      · rw [stepState, step, pedidoAceitar_ok st pid' q hfind hq]
        by_cases hp : pid = pid'
        · subst hp
          right
          refine ⟨.preparando, ?_, ?_, ?_⟩
          · show (findPedido (updateFirst st.pedidos pid _) pid).map
              Pedido.status = _
            rw [findPedido_updateFirst_self st.pedidos pid q _
              (by intro p; rfl) hfind]
            rfl
          · rw [hq0] at hfind
            cases hfind
            rw [← hq0s, hq]
            decide
          · rw [← hq0s]
            rw [hq0] at hfind
            cases hfind
            rw [hq]
            rfl
        · left
          show (findPedido (updateFirst st.pedidos pid' _) pid).map
            Pedido.status = _
          rw [findPedido_updateFirst_ne st.pedidos pid' pid _
            (by intro p; rfl) hp, hq0]
          simp [hq0s]
      · rw [stepState, step, pedidoAceitar_wrong_status st pid' q hfind hq]
        exact Or.inl h
  | finalizar pid' agora =>
    rcases hfind : findPedido st.pedidos pid' with _ | q
    · rw [stepState, step, pedidoFinalizar_not_found st pid' agora hfind]
      exact Or.inl h
    · by_cases hq : q.status = .preparando
      · rw [stepState, step, pedidoFinalizar_ok st pid' agora q hfind hq]
        by_cases hp : pid = pid'
        · subst hp
          right
          refine ⟨.pronto, ?_, ?_, ?_⟩
          · show (findPedido (updateFirst st.pedidos pid _) pid).map
              Pedido.status = _
            rw [findPedido_updateFirst_self st.pedidos pid q _
              (by intro p; rfl) hfind]
            rfl
          · rw [hq0] at hfind
            cases hfind
            rw [← hq0s, hq]
            decide
          · rw [← hq0s]
            rw [hq0] at hfind
            cases hfind
            rw [hq]
            rfl
        · left
          show (findPedido (updateFirst st.pedidos pid' _) pid).map
            Pedido.status = _
          rw [findPedido_updateFirst_ne st.pedidos pid' pid _
            (by intro p; rfl) hp, hq0]
          simp [hq0s]
      · rw [stepState, step,
          pedidoFinalizar_wrong_status st pid' agora q hfind hq]
        exact Or.inl h
  | cancelar pid' agora =>
    rcases hfind : findPedido st.pedidos pid' with _ | q
    · rw [stepState, step, pedidoCancelar_not_found st pid' agora hfind]
      exact Or.inl h
    · by_cases hq : q.status = .entregue ∨ q.status = .cancelado
      · rw [stepState, step, pedidoCancelar_blocked st pid' agora q hfind hq]
        exact Or.inl h
      · rw [stepState, step, pedidoCancelar_ok st pid' agora q hfind hq]
        by_cases hp : pid = pid'
        · subst hp
          right
          refine ⟨.cancelado, ?_, ?_, ?_⟩
          · show (findPedido (updateFirst st.pedidos pid _) pid).map
              Pedido.status = _
            rw [findPedido_updateFirst_self st.pedidos pid q _
              (by intro p; rfl) hfind]
            rfl
          · rw [hq0] at hfind
            cases hfind
            rw [← hq0s]
            push_neg at hq
            intro hcon
            exact hq.2 hcon
          · rw [← hq0s]
            rw [hq0] at hfind
            cases hfind
            push_neg at hq
            rcases hqs : q0.status <;> simp_all [codeEdge, specEdge]
        · left
          show (findPedido (updateFirst st.pedidos pid' _) pid).map
            Pedido.status = _
          rw [findPedido_updateFirst_ne st.pedidos pid' pid _
            (by intro p; rfl) hp, hq0]
          simp [hq0s]
  | entregar pid' agora =>
    rcases hfind : findPedido st.pedidos pid' with _ | q
    · rw [stepState, step, pedidoEntregar_not_found st pid' agora hfind]
      exact Or.inl h
    · by_cases hq : q.status = .pronto
      · rw [stepState, step, pedidoEntregar_ok st pid' agora q hfind hq]
        by_cases hp : pid = pid'
        · subst hp
          right
          refine ⟨.entregue, ?_, ?_, ?_⟩
          · show (findPedido (updateFirst st.pedidos pid _) pid).map
              Pedido.status = _
            rw [findPedido_updateFirst_self st.pedidos pid q _
              (by intro p; rfl) hfind]
            rfl
          · rw [hq0] at hfind
            cases hfind
            rw [← hq0s, hq]
            decide
          · rw [← hq0s]
            rw [hq0] at hfind
            cases hfind
            rw [hq]
            rfl
        · left
          show (findPedido (updateFirst st.pedidos pid' _) pid).map
            Pedido.status = _
          rw [findPedido_updateFirst_ne st.pedidos pid' pid _
            (by intro p; rfl) hp, hq0]
          simp [hq0s]
      · rw [stepState, step,
          pedidoEntregar_wrong_status st pid' agora q hfind hq]
        exact Or.inl h
  | timerFire pid' =>
    by_cases hmem : pid' ∈ st.timersExpiracao
    · rcases hfind : findPedido st.pedidos pid' with _ | q
      · rw [stepState, step, timerFireStep, if_pos hmem,
          timerCallback_not_found st pid' hfind]
        exact Or.inl h
      · by_cases hq : q.status = .pendente
        · rw [stepState, step, timerFireStep, if_pos hmem,
            timerCallback_pending st pid' q hfind hq]
          by_cases hp : pid = pid'
          · subst hp
            right
            refine ⟨.expirado, ?_, ?_, ?_⟩
            · show (findPedido (updateFirst st.pedidos pid _) pid).map
                Pedido.status = _
              rw [findPedido_updateFirst_self st.pedidos pid q _
                (by intro p; rfl) hfind]
              rfl
            · rw [hq0] at hfind
              cases hfind
              rw [← hq0s, hq]
              decide
            · rw [← hq0s]
              rw [hq0] at hfind
              cases hfind
              rw [hq]
              rfl
          · left
            show (findPedido (updateFirst st.pedidos pid' _) pid).map
              Pedido.status = _
            rw [findPedido_updateFirst_ne st.pedidos pid' pid _
              (by intro p; rfl) hp, hq0]
            simp [hq0s]
        · rw [stepState, step, timerFireStep, if_pos hmem,
            timerCallback_not_pending st pid' q hfind hq]
          exact Or.inl h
    · rw [stepState, step, timerFireStep_dead st pid' hmem]
      exact Or.inl h
  | reset => exact absurd rfl ha

theorem leftPending_codeEdge (s s' : Status) (h : codeEdge s s' = true)
    (h1 : s ≠ .pendente) (h2 : s ≠ .expirado) :
    s' ≠ .pendente ∧ s' ≠ .expirado := by
  cases s <;> cases s' <;> revert h h1 h2 <;> decide

/-! ### Which step can broadcast an expiration -/

theorem expirado_emission_step (st : SystemState) (a : Action) (p : Pedido)
    (hmem : Emission.broadcast "pedido.expirado" (some p) ∈ stepEmissions st a) :
    statusOf st p.id = some .pendente := by
  cases a with
  | iniciar =>
    rw [stepEmissions, step, sistemaIniciar] at hmem
    simp at hmem
  | criar dados sid agora =>
    rcases hA : st.sistemaAtivo with _ | _
    · rw [stepEmissions, step, pedidoCriar_inactive st dados sid agora hA]
        at hmem
      simp at hmem
    · rcases hv : dadosValidos dados with _ | _
      · rw [stepEmissions, step, pedidoCriar_invalid st dados sid agora hA hv]
          at hmem
        simp at hmem
      · rw [stepEmissions, step, pedidoCriar_valid st dados sid agora hA hv]
          at hmem
        simp at hmem
  | aceitar pid' =>
    rcases hfind : findPedido st.pedidos pid' with _ | q
    · rw [stepEmissions, step, pedidoAceitar_not_found st pid' hfind] at hmem
      simp at hmem
    · by_cases hq : q.status = .pendente
      · rw [stepEmissions, step, pedidoAceitar_ok st pid' q hfind hq] at hmem
        simp at hmem
      · rw [stepEmissions, step, pedidoAceitar_wrong_status st pid' q hfind hq]
          at hmem
        simp at hmem
  | finalizar pid' agora =>
    rcases hfind : findPedido st.pedidos pid' with _ | q
    · rw [stepEmissions, step, pedidoFinalizar_not_found st pid' agora hfind]
        at hmem
      simp at hmem
    · by_cases hq : q.status = .preparando
      · rw [stepEmissions, step, pedidoFinalizar_ok st pid' agora q hfind hq]
          at hmem
        simp at hmem
      · rw [stepEmissions, step,
          pedidoFinalizar_wrong_status st pid' agora q hfind hq] at hmem
        simp at hmem
  | cancelar pid' agora =>
    rcases hfind : findPedido st.pedidos pid' with _ | q
    · rw [stepEmissions, step, pedidoCancelar_not_found st pid' agora hfind]
        at hmem
      simp at hmem
    · by_cases hq : q.status = .entregue ∨ q.status = .cancelado
      · rw [stepEmissions, step, pedidoCancelar_blocked st pid' agora q hfind hq]
          at hmem
        simp at hmem
      · rw [stepEmissions, step, pedidoCancelar_ok st pid' agora q hfind hq]
          at hmem
        simp at hmem
  | entregar pid' agora =>
    rcases hfind : findPedido st.pedidos pid' with _ | q
    · rw [stepEmissions, step, pedidoEntregar_not_found st pid' agora hfind]
        at hmem
      simp at hmem
    · by_cases hq : q.status = .pronto
      · rw [stepEmissions, step, pedidoEntregar_ok st pid' agora q hfind hq]
          at hmem
        simp at hmem
      · rw [stepEmissions, step,
          pedidoEntregar_wrong_status st pid' agora q hfind hq] at hmem
        simp at hmem
  | timerFire pid' =>
    by_cases hmemT : pid' ∈ st.timersExpiracao
    · rcases hfind : findPedido st.pedidos pid' with _ | q
      · rw [stepEmissions, step, timerFireStep, if_pos hmemT,
          timerCallback_not_found st pid' hfind] at hmem
        simp at hmem
      · by_cases hq : q.status = .pendente
        · rw [stepEmissions, step, timerFireStep, if_pos hmemT,
            timerCallback_pending st pid' q hfind hq] at hmem
          simp only [List.mem_singleton] at hmem
          rw [findPedido_updateFirst_self st.pedidos pid' q _
            (by intro p; rfl) hfind] at hmem
          have hp : p = { q with status := .expirado } := by
            injection hmem with hev hpayload
            exact Option.some.inj hpayload
          obtain ⟨hqmem, hqid⟩ := findPedido_mem st.pedidos pid' q hfind
          subst hp
          show (findPedido st.pedidos
            ({ q with status := Status.expirado } : Pedido).id).map
              Pedido.status = _
          rw [show ({ q with status := Status.expirado } : Pedido).id = q.id
            from rfl, hqid, hfind]
          simp [hq]
        · rw [stepEmissions, step, timerFireStep, if_pos hmemT,
            timerCallback_not_pending st pid' q hfind hq] at hmem
          simp at hmem
    · rw [stepEmissions, step, timerFireStep_dead st pid' hmemT] at hmem
      simp at hmem
  | reset =>
    rw [stepEmissions, step, sistemaReset] at hmem
    simp at hmem

/-! ### An order that has left pending, along a reset-free trace -/

theorem leftPending_run (st : SystemState) (acts : List Action) (pid : Nat)
    (s : Status) :
    statusOf st pid = some s → s ≠ .pendente → s ≠ .expirado →
    Action.reset ∉ acts →
    (∃ s', statusOf (runState st acts) pid = some s' ∧ s' ≠ .pendente ∧
        s' ≠ .expirado) ∧
    (∀ p, Emission.broadcast "pedido.expirado" (some p) ∈ runEmissions st acts →
      p.id ≠ pid) := by
  induction acts generalizing st s with
  | nil =>
    intro h h1 h2 _
    refine ⟨⟨s, h, h1, h2⟩, ?_⟩
    intro p hp
    simp [runEmissions] at hp
  | cons a rest ih =>
    intro h h1 h2 hnr
    have ha : a ≠ .reset := by
      rintro rfl
      exact hnr (List.mem_cons_self _ _)
    have hrest : Action.reset ∉ rest := fun hm => hnr (List.mem_cons_of_mem _ hm)
    have hnext : ∃ s', statusOf (stepState st a) pid = some s' ∧
        s' ≠ .pendente ∧ s' ≠ .expirado := by
      rcases statusOf_step_total st a pid s h ha with h' | ⟨s', h', _, hedge⟩
      · exact ⟨s, h', h1, h2⟩
      · obtain ⟨g1, g2⟩ := leftPending_codeEdge s s' hedge h1 h2
        exact ⟨s', h', g1, g2⟩
    obtain ⟨s', h', h1', h2'⟩ := hnext
    obtain ⟨hA, hB⟩ := ih (stepState st a) s' h' h1' h2' hrest
    refine ⟨hA, ?_⟩
    intro p hp
    rw [runEmissions, List.mem_append] at hp
    rcases hp with hp | hp
    · intro hid
      have hpend := expirado_emission_step st a p hp
      rw [hid, h] at hpend
      exact h1 (Option.some.inj hpend)
    · exact hB p hp

/-! ### Frame helpers -/

theorem changesOnly_refl (r c d : Bool) (p : Pedido) : changesOnly r c d p p :=
  ⟨⟨rfl, rfl, rfl, rfl, rfl⟩, fun _ => rfl, fun _ => rfl, fun _ => rfl⟩

theorem frameOk_of_eq (st : SystemState) (a : Action)
    (R : Pedido → Pedido → Prop) (hrefl : ∀ p, R p p)
    (h : stepState st a = st) : frameOk st a R :=
  ⟨by rw [h]; exact List.forall₂_same.mpr fun x _ => hrefl x, by rw [h],
    by rw [h]⟩

theorem frameOk_of_update (st : SystemState) (a : Action)
    (R : Pedido → Pedido → Prop) (hrefl : ∀ p, R p p) (pid : Nat)
    (f : Pedido → Pedido) (ts : List Nat) (hf : ∀ p, R p (f p))
    (h : stepState st a =
      { st with pedidos := updateFirst st.pedidos pid f,
                timersExpiracao := ts }) :
    frameOk st a R :=
  ⟨by rw [h]; exact updateFirst_forall₂ st.pedidos pid f hrefl hf, by rw [h],
    by rw [h]⟩

/-! ### The flag is read only by order creation -/

theorem step_flag_indep (st : SystemState) (b : Bool) (a : Action)
    (h : checksFlag a = false) :
    (step { st with sistemaAtivo := b } a).1.pedidos = (step st a).1.pedidos ∧
    (step { st with sistemaAtivo := b } a).1.proximoId =
      (step st a).1.proximoId ∧
    (step { st with sistemaAtivo := b } a).1.timersExpiracao =
      (step st a).1.timersExpiracao ∧
    (step { st with sistemaAtivo := b } a).2 = (step st a).2 := by
  cases a with
  | criar dados sid agora => exact absurd h (by simp [checksFlag])
  | iniciar => exact ⟨rfl, rfl, rfl, rfl⟩
  | reset => exact ⟨rfl, rfl, rfl, rfl⟩
  | aceitar pid =>
    rcases hfind : findPedido st.pedidos pid with _ | q
    · rw [step, step, pedidoAceitar_not_found { st with sistemaAtivo := b }
        pid hfind, pedidoAceitar_not_found st pid hfind]
      exact ⟨rfl, rfl, rfl, rfl⟩
    · by_cases hq : q.status = .pendente
      · rw [step, step, pedidoAceitar_ok { st with sistemaAtivo := b }
          pid q hfind hq, pedidoAceitar_ok st pid q hfind hq]
        exact ⟨rfl, rfl, rfl, rfl⟩
      · rw [step, step, pedidoAceitar_wrong_status { st with sistemaAtivo := b }
          pid q hfind hq, pedidoAceitar_wrong_status st pid q hfind hq]
        exact ⟨rfl, rfl, rfl, rfl⟩
  | finalizar pid agora =>
    rcases hfind : findPedido st.pedidos pid with _ | q
    · rw [step, step, pedidoFinalizar_not_found { st with sistemaAtivo := b }
        pid agora hfind, pedidoFinalizar_not_found st pid agora hfind]
      exact ⟨rfl, rfl, rfl, rfl⟩
    · by_cases hq : q.status = .preparando
      · rw [step, step, pedidoFinalizar_ok { st with sistemaAtivo := b }
          pid agora q hfind hq, pedidoFinalizar_ok st pid agora q hfind hq]
        exact ⟨rfl, rfl, rfl, rfl⟩
      · rw [step, step, pedidoFinalizar_wrong_status
          { st with sistemaAtivo := b } pid agora q hfind hq,
          pedidoFinalizar_wrong_status st pid agora q hfind hq]
        exact ⟨rfl, rfl, rfl, rfl⟩
  | cancelar pid agora =>
    rcases hfind : findPedido st.pedidos pid with _ | q
    · rw [step, step, pedidoCancelar_not_found { st with sistemaAtivo := b }
        pid agora hfind, pedidoCancelar_not_found st pid agora hfind]
      exact ⟨rfl, rfl, rfl, rfl⟩
    · by_cases hq : q.status = .entregue ∨ q.status = .cancelado
      · rw [step, step, pedidoCancelar_blocked { st with sistemaAtivo := b }
          pid agora q hfind hq, pedidoCancelar_blocked st pid agora q hfind hq]
        exact ⟨rfl, rfl, rfl, rfl⟩
      · rw [step, step, pedidoCancelar_ok { st with sistemaAtivo := b }
          pid agora q hfind hq, pedidoCancelar_ok st pid agora q hfind hq]
        exact ⟨rfl, rfl, rfl, rfl⟩
  | entregar pid agora =>
    rcases hfind : findPedido st.pedidos pid with _ | q
    · rw [step, step, pedidoEntregar_not_found { st with sistemaAtivo := b }
        pid agora hfind, pedidoEntregar_not_found st pid agora hfind]
      exact ⟨rfl, rfl, rfl, rfl⟩
    · by_cases hq : q.status = .pronto
      · rw [step, step, pedidoEntregar_ok { st with sistemaAtivo := b }
          pid agora q hfind hq, pedidoEntregar_ok st pid agora q hfind hq]
        exact ⟨rfl, rfl, rfl, rfl⟩
      · rw [step, step, pedidoEntregar_wrong_status
          { st with sistemaAtivo := b } pid agora q hfind hq,
          pedidoEntregar_wrong_status st pid agora q hfind hq]
        exact ⟨rfl, rfl, rfl, rfl⟩
  | timerFire pid =>
    by_cases hmem : pid ∈ st.timersExpiracao
    · rcases hfind : findPedido st.pedidos pid with _ | q
      · rw [step, step, timerFireStep, timerFireStep, if_pos hmem, if_pos hmem,
          timerCallback_not_found { st with sistemaAtivo := b } pid hfind,
          timerCallback_not_found st pid hfind]
        exact ⟨rfl, rfl, rfl, rfl⟩
      · by_cases hq : q.status = .pendente
        · rw [step, step, timerFireStep, timerFireStep, if_pos hmem,
            if_pos hmem,
            timerCallback_pending { st with sistemaAtivo := b } pid q hfind hq,
            timerCallback_pending st pid q hfind hq]
          exact ⟨rfl, rfl, rfl, rfl⟩
        · rw [step, step, timerFireStep, timerFireStep, if_pos hmem,
            if_pos hmem,
            timerCallback_not_pending { st with sistemaAtivo := b }
              pid q hfind hq,
            timerCallback_not_pending st pid q hfind hq]
          exact ⟨rfl, rfl, rfl, rfl⟩
    · rw [step, step, timerFireStep_dead { st with sistemaAtivo := b } pid hmem,
        timerFireStep_dead st pid hmem]
      exact ⟨rfl, rfl, rfl, rfl⟩

theorem no_inactive_error_step (st : SystemState) (a : Action)
    (h : checksFlag a = false) :
    Emission.erroOperacao "Sistema não está ativo!" ∉ stepEmissions st a := by
  cases a with
  | criar dados sid agora => exact absurd h (by simp [checksFlag])
  | iniciar => simp [stepEmissions, step, sistemaIniciar]
  | reset => simp [stepEmissions, step, sistemaReset]
  | aceitar pid =>
    rcases hfind : findPedido st.pedidos pid with _ | q
    · rw [stepEmissions, step, pedidoAceitar_not_found st pid hfind]
      simp
    · by_cases hq : q.status = .pendente
      · rw [stepEmissions, step, pedidoAceitar_ok st pid q hfind hq]
        simp
      · rw [stepEmissions, step, pedidoAceitar_wrong_status st pid q hfind hq]
        simp
  | finalizar pid agora =>
    rcases hfind : findPedido st.pedidos pid with _ | q
    · rw [stepEmissions, step, pedidoFinalizar_not_found st pid agora hfind]
      simp
    · by_cases hq : q.status = .preparando
      · rw [stepEmissions, step, pedidoFinalizar_ok st pid agora q hfind hq]
        simp
      · rw [stepEmissions, step,
          pedidoFinalizar_wrong_status st pid agora q hfind hq]
        simp
  | cancelar pid agora =>
    rcases hfind : findPedido st.pedidos pid with _ | q
    · rw [stepEmissions, step, pedidoCancelar_not_found st pid agora hfind]
      simp
    · by_cases hq : q.status = .entregue ∨ q.status = .cancelado
      · rw [stepEmissions, step, pedidoCancelar_blocked st pid agora q hfind hq]
        simp
      · rw [stepEmissions, step, pedidoCancelar_ok st pid agora q hfind hq]
        simp
  | entregar pid agora =>
    rcases hfind : findPedido st.pedidos pid with _ | q
    · rw [stepEmissions, step, pedidoEntregar_not_found st pid agora hfind]
      simp
    · by_cases hq : q.status = .pronto
      · rw [stepEmissions, step, pedidoEntregar_ok st pid agora q hfind hq]
        simp
      · rw [stepEmissions, step,
          pedidoEntregar_wrong_status st pid agora q hfind hq]
        simp
  | timerFire pid =>
    by_cases hmem : pid ∈ st.timersExpiracao
    · rcases hfind : findPedido st.pedidos pid with _ | q
      · rw [stepEmissions, step, timerFireStep, if_pos hmem,
          timerCallback_not_found st pid hfind]
        simp
      · by_cases hq : q.status = .pendente
        · rw [stepEmissions, step, timerFireStep, if_pos hmem,
            timerCallback_pending st pid q hfind hq]
          simp
        · rw [stepEmissions, step, timerFireStep, if_pos hmem,
            timerCallback_not_pending st pid q hfind hq]
          simp
    · rw [stepEmissions, step, timerFireStep_dead st pid hmem]
      simp

/-! ### The claims -/

/-- C1, counterexample to the claim as stated: after the expiration timer
fires, the order is `expirado`, yet `pedido.cancelar` still succeeds and
moves it to `cancelado` — a transition absent from the section-4 table. -/
theorem C1_counterexample :
    statusOf (runState initialState
      [.iniciar, .criar ⟨some "Ana", some "Pizza"⟩ 0 0, .timerFire 1]) 1 =
        some .expirado ∧
    statusOf (runState initialState
      [.iniciar, .criar ⟨some "Ana", some "Pizza"⟩ 0 0, .timerFire 1,
        .cancelar 1 5]) 1 = some .cancelado ∧
    specEdge .expirado .cancelado = false := by
  decide

/-- C1 (amended): in every state, one step changes an order's status only
along the section-4 table edges or the extra expired→canceled edge that
`pedido.cancelar` allows. -/
theorem C1_status_transitions (st : SystemState) (a : Action) (pid : Nat)
    (s s' : Status) (h : statusOf st pid = some s)
    (h' : statusOf (stepState st a) pid = some s') (hne : s ≠ s') :
    codeEdge s s' = true :=
  status_step_edge st a pid s s' h h' hne

/-- C1, witness: accepting a freshly created pending order performs the
pending→preparing edge. -/
theorem C1_status_transitions_witness :
    statusOf (runState initialState
      [.iniciar, .criar ⟨some "Ana", some "Pizza"⟩ 0 0]) 1 = some .pendente ∧
    statusOf (stepState (runState initialState
      [.iniciar, .criar ⟨some "Ana", some "Pizza"⟩ 0 0]) (.aceitar 1)) 1 =
        some .preparando ∧
    codeEdge .pendente .preparando = true :=
  ⟨by decide, by decide,
    C1_status_transitions
      (runState initialState [.iniciar, .criar ⟨some "Ana", some "Pizza"⟩ 0 0])
      (.aceitar 1) 1 .pendente .preparando (by decide) (by decide) (by decide)⟩

/-- C2, counterexample to the claim as stated: on an `expirado` order,
cancel does not fail — it broadcasts `pedido.cancelado` and the status
becomes `cancelado`, so `expirado` is not terminal for cancel. -/
theorem C2_counterexample :
    statusOf (runState initialState
      [.iniciar, .criar ⟨some "Ana", some "Pizza"⟩ 0 0, .timerFire 1]) 1 =
        some .expirado ∧
    statusOf (runState initialState
      [.iniciar, .criar ⟨some "Ana", some "Pizza"⟩ 0 0, .timerFire 1,
        .cancelar 1 5]) 1 = some .cancelado ∧
    stepEmissions (runState initialState
      [.iniciar, .criar ⟨some "Ana", some "Pizza"⟩ 0 0, .timerFire 1])
        (.cancelar 1 5) =
      [.broadcast "pedido.cancelado"
        (some { id := 1, cliente := "Ana", itens := "Pizza",
                status := .cancelado, criadoEm := 0, socketId := 0,
                prontoEm := none, canceladoEm := some 5,
                entregueEm := none })] := by
  decide

/-- C2 (amended): on an `expirado` order, accept, finalize and deliver
fail with their invalid-transition error, notify only the caller and
leave the whole state unchanged; cancel however succeeds and moves the
order to `cancelado`. -/
theorem C2_expired_behavior (st : SystemState) (pid agora : Nat) (q : Pedido)
    (h : findPedido st.pedidos pid = some q) (hq : q.status = .expirado) :
    step st (.aceitar pid) =
      (st, [.erroOperacao "Apenas pedidos pendentes podem ser aceitos!"]) ∧
    step st (.finalizar pid agora) =
      (st, [.erroOperacao "Apenas pedidos em preparo podem ser finalizados!"]) ∧
    step st (.entregar pid agora) =
      (st, [.erroOperacao "Apenas pedidos prontos podem ser entregues!"]) ∧
    statusOf (stepState st (.cancelar pid agora)) pid = some .cancelado := by
  refine ⟨?_, ?_, ?_, ?_⟩
  · rw [step]
    exact pedidoAceitar_wrong_status st pid q h (by simp [hq])
  · rw [step]
    exact pedidoFinalizar_wrong_status st pid agora q h (by simp [hq])
  · rw [step]
    exact pedidoEntregar_wrong_status st pid agora q h (by simp [hq])
  · have hs : ¬(q.status = .entregue ∨ q.status = .cancelado) := by simp [hq]
    rw [stepState, step, pedidoCancelar_ok st pid agora q h hs]
    show (findPedido (updateFirst st.pedidos pid _) pid).map Pedido.status = _
    rw [findPedido_updateFirst_self st.pedidos pid q _ (by intro p; rfl) h]
    rfl

/-- C2, witness: the amended behavior at a concrete expired order. -/
theorem C2_expired_behavior_witness :
    step (runState initialState
      [.iniciar, .criar ⟨some "Ana", some "Pizza"⟩ 0 0, .timerFire 1])
        (.aceitar 1) =
      (runState initialState
        [.iniciar, .criar ⟨some "Ana", some "Pizza"⟩ 0 0, .timerFire 1],
       [.erroOperacao "Apenas pedidos pendentes podem ser aceitos!"]) ∧
    step (runState initialState
      [.iniciar, .criar ⟨some "Ana", some "Pizza"⟩ 0 0, .timerFire 1])
        (.finalizar 1 9) =
      (runState initialState
        [.iniciar, .criar ⟨some "Ana", some "Pizza"⟩ 0 0, .timerFire 1],
       [.erroOperacao "Apenas pedidos em preparo podem ser finalizados!"]) ∧
    step (runState initialState
      [.iniciar, .criar ⟨some "Ana", some "Pizza"⟩ 0 0, .timerFire 1])
        (.entregar 1 9) =
      (runState initialState
        [.iniciar, .criar ⟨some "Ana", some "Pizza"⟩ 0 0, .timerFire 1],
       [.erroOperacao "Apenas pedidos prontos podem ser entregues!"]) ∧
    statusOf (stepState (runState initialState
      [.iniciar, .criar ⟨some "Ana", some "Pizza"⟩ 0 0, .timerFire 1])
        (.cancelar 1 9)) 1 = some .cancelado :=
  C2_expired_behavior
    (runState initialState
      [.iniciar, .criar ⟨some "Ana", some "Pizza"⟩ 0 0, .timerFire 1]) 1 9
    { id := 1, cliente := "Ana", itens := "Pizza", status := .expirado,
      criadoEm := 0, socketId := 0, prontoEm := none, canceladoEm := none,
      entregueEm := none }
    (by decide) (by decide)

/-- C3, counterexample to the claim as stated: a whitespace-only customer
is JS-truthy, so validation passes, an order is created with the customer
trimmed to the empty string, and `pedido.criado` is broadcast — instead
of the claimed `InvalidInput` failure. -/
theorem C3_counterexample :
    (runState initialState
      [.iniciar, .criar ⟨some " ", some "Pizza"⟩ 7 3]).pedidos =
      [{ id := 1, cliente := "", itens := "Pizza", status := .pendente,
         criadoEm := 3, socketId := 7, prontoEm := none, canceladoEm := none,
         entregueEm := none }] ∧
    stepEmissions (runState initialState [.iniciar])
      (.criar ⟨some " ", some "Pizza"⟩ 7 3) =
      [.broadcast "pedido.criado"
        (some { id := 1, cliente := "", itens := "Pizza", status := .pendente,
                criadoEm := 3, socketId := 7, prontoEm := none,
                canceladoEm := none, entregueEm := none })] := by
  decide

/-- C3 (amended): with the system active, creation fails with the
invalid-input error — only the caller notified, state untouched — iff
`customer` or `items` is absent or the empty string (JS truthiness,
checked before trimming); any other input — including whitespace-only
strings — yields a new pending order storing the trimmed texts. -/
theorem C3_validation (st : SystemState) (dados : Dados) (sid agora : Nat)
    (hA : st.sistemaAtivo = true) :
    (dadosValidos dados = false →
      step st (.criar dados sid agora) =
        (st,
         [.erroOperacao "Dados inválidos! Cliente e itens são obrigatórios."])) ∧
    (dadosValidos dados = true →
      ∃ p, (stepState st (.criar dados sid agora)).pedidos =
          st.pedidos ++ [p] ∧
        p.cliente = jsTrim (dados.cliente.getD "") ∧
        p.itens = jsTrim (dados.itens.getD "") ∧ p.status = .pendente ∧
        stepEmissions st (.criar dados sid agora) =
          [.broadcast "pedido.criado" (some p)]) := by
  constructor
  · intro hv
    rw [step]
    exact pedidoCriar_invalid st dados sid agora hA hv
  · intro hv
    refine ⟨novoPedido dados st.proximoId sid agora, ?_, rfl, rfl, rfl, ?_⟩
    · rw [stepState, step, pedidoCriar_valid st dados sid agora hA hv]
    · rw [stepEmissions, step, pedidoCriar_valid st dados sid agora hA hv]

/-- C3, witness: the amended validation at a concrete active state. -/
theorem C3_validation_witness :
    (dadosValidos ⟨some "", some "Pizza"⟩ = false →
      step (runState initialState [.iniciar])
        (.criar ⟨some "", some "Pizza"⟩ 7 3) =
        (runState initialState [.iniciar],
         [.erroOperacao "Dados inválidos! Cliente e itens são obrigatórios."])) ∧
    (dadosValidos ⟨some "", some "Pizza"⟩ = true →
      ∃ p, (stepState (runState initialState [.iniciar])
          (.criar ⟨some "", some "Pizza"⟩ 7 3)).pedidos =
          (runState initialState [.iniciar]).pedidos ++ [p] ∧
        p.cliente = jsTrim ((some "" : Option String).getD "") ∧
        p.itens = jsTrim ((some "Pizza" : Option String).getD "") ∧
        p.status = .pendente ∧
        stepEmissions (runState initialState [.iniciar])
          (.criar ⟨some "", some "Pizza"⟩ 7 3) =
          [.broadcast "pedido.criado" (some p)]) :=
  C3_validation (runState initialState [.iniciar]) ⟨some "", some "Pizza"⟩ 7 3
    (by decide)

/-- C4, counterexample to the claim as stated: the same id 1 is assigned
to two different successfully created orders, because `sistema.reset`
restores `proximoId` to 1. -/
theorem C4_counterexample :
    (runState initialState
      [.iniciar, .criar ⟨some "Ana", some "Pizza"⟩ 0 0]).pedidos.map
        Pedido.id = [1] ∧
    (runState initialState
      [.iniciar, .criar ⟨some "Ana", some "Pizza"⟩ 0 0, .reset,
        .criar ⟨some "Bob", some "Suco"⟩ 0 9]).pedidos.map Pedido.id = [1] ∧
    (runState initialState
      [.iniciar, .criar ⟨some "Ana", some "Pizza"⟩ 0 0, .reset,
        .criar ⟨some "Bob", some "Suco"⟩ 0 9]).pedidos.map Pedido.cliente =
      ["Bob"] := by
  decide

/-- C4 (amended): between two resets ids are strictly increasing and never
reused: a successful creation assigns `proximoId` and increments it, the
counter never decreases under reset-free activity, so a later successful
creation gets a strictly larger id; only `sistema.reset` (which also
clears the collection) restores the counter to 1. -/
theorem C4_ids_between_resets (st : SystemState) (acts : List Action)
    (d1 d2 : Dados) (s1 n1 s2 n2 : Nat) (hA : st.sistemaAtivo = true)
    (hv1 : dadosValidos d1 = true) (hv2 : dadosValidos d2 = true)
    (hnr : Action.reset ∉ acts) :
    (stepState st (.criar d1 s1 n1)).pedidos =
      st.pedidos ++ [novoPedido d1 st.proximoId s1 n1] ∧
    (stepState (runState (stepState st (.criar d1 s1 n1)) acts)
        (.criar d2 s2 n2)).pedidos =
      (runState (stepState st (.criar d1 s1 n1)) acts).pedidos ++
        [novoPedido d2
          (runState (stepState st (.criar d1 s1 n1)) acts).proximoId s2 n2] ∧
    st.proximoId <
      (runState (stepState st (.criar d1 s1 n1)) acts).proximoId := by
  have hstep1 := pedidoCriar_valid st d1 s1 n1 hA hv1
  have hAmid : (runState (stepState st (.criar d1 s1 n1)) acts).sistemaAtivo =
      true :=
    sistemaAtivo_run_true _ acts (sistemaAtivo_step_true st _ hA)
  have hinc : (stepState st (.criar d1 s1 n1)).proximoId = st.proximoId + 1 :=
    by rw [stepState, step, hstep1]
  refine ⟨by rw [stepState, step, hstep1], ?_, ?_⟩
  · rw [stepState, step, pedidoCriar_valid _ d2 s2 n2 hAmid hv2]
  · calc st.proximoId < st.proximoId + 1 := Nat.lt_succ_self _
      _ = (stepState st (.criar d1 s1 n1)).proximoId := hinc.symm
      _ ≤ _ := proximoId_run_le _ acts hnr

/-- C4, witness: the amended id discipline at the started system with one
intermediate acceptance between two creations. -/
theorem C4_ids_between_resets_witness :
    (stepState (runState initialState [.iniciar])
        (.criar ⟨some "Ana", some "Pizza"⟩ 0 0)).pedidos =
      (runState initialState [.iniciar]).pedidos ++
        [novoPedido ⟨some "Ana", some "Pizza"⟩
          (runState initialState [.iniciar]).proximoId 0 0] ∧
    (stepState (runState (stepState (runState initialState [.iniciar])
        (.criar ⟨some "Ana", some "Pizza"⟩ 0 0)) [.aceitar 1])
        (.criar ⟨some "Bob", some "Suco"⟩ 0 9)).pedidos =
      (runState (stepState (runState initialState [.iniciar])
        (.criar ⟨some "Ana", some "Pizza"⟩ 0 0)) [.aceitar 1]).pedidos ++
        [novoPedido ⟨some "Bob", some "Suco"⟩
          (runState (stepState (runState initialState [.iniciar])
            (.criar ⟨some "Ana", some "Pizza"⟩ 0 0)) [.aceitar 1]).proximoId
          0 9] ∧
    (runState initialState [.iniciar]).proximoId <
      (runState (stepState (runState initialState [.iniciar])
        (.criar ⟨some "Ana", some "Pizza"⟩ 0 0)) [.aceitar 1]).proximoId :=
  C4_ids_between_resets (runState initialState [.iniciar]) [.aceitar 1]
    ⟨some "Ana", some "Pizza"⟩ ⟨some "Bob", some "Suco"⟩ 0 0 0 9
    (by decide) (by decide) (by decide) (by decide)

/-- C5: in every reachable state, a timer never survives its own firing
(so it cannot fire twice), and once an order is no longer `pendente` its
timer handle is gone, a firing for it is a strict no-op, and — as long as
the order is not destroyed by a reset — it never becomes `expirado` and
no `pedido.expirado` broadcast ever carries its id. -/
theorem C5_timer_cleanup (st : SystemState) (h : Reachable st) (pid : Nat) :
    (pid ∉ (stepState st (.timerFire pid)).timersExpiracao) ∧
    (step (stepState st (.timerFire pid)) (.timerFire pid) =
      (stepState st (.timerFire pid), [])) ∧
    ∀ s, statusOf st pid = some s → s ≠ .pendente →
      pid ∉ st.timersExpiracao ∧
      step st (.timerFire pid) = (st, []) ∧
      (s ≠ .expirado → ∀ acts, Action.reset ∉ acts →
        statusOf (runState st acts) pid ≠ some .expirado ∧
        ∀ p, Emission.broadcast "pedido.expirado" (some p) ∈
            runEmissions st acts → p.id ≠ pid) := by
  obtain ⟨h1, h2, h3⟩ := inv_reachable st h
  have hnotin : pid ∉ (stepState st (.timerFire pid)).timersExpiracao := by
    by_cases hmem : pid ∈ st.timersExpiracao
    · have hstat := h3 pid hmem
      rw [statusOf] at hstat
      obtain ⟨q, hq, hqs⟩ := Option.map_eq_some'.mp hstat
      rw [stepState, step, timerFireStep, if_pos hmem,
        timerCallback_pending st pid q hq hqs]
      dsimp only
      intro hcon
      rw [List.mem_filter] at hcon
      simp at hcon
    · rw [stepState, step, timerFireStep_dead st pid hmem]
      exact hmem
  refine ⟨hnotin, ?_, ?_⟩
  · rw [step]
    exact timerFireStep_dead _ pid hnotin
  · intro s hs hsp
    have hnot : pid ∉ st.timersExpiracao := by
      intro hmem
      have hstat := h3 pid hmem
      rw [hs] at hstat
      exact hsp (Option.some.inj hstat)
    refine ⟨hnot, ?_, ?_⟩
    · rw [step]
      exact timerFireStep_dead st pid hnot
    · intro hse acts hnr
      obtain ⟨⟨s', hs', h1', h2'⟩, hB⟩ :=
        leftPending_run st acts pid s hs hsp hse hnr
      refine ⟨?_, hB⟩
      rw [hs']
      intro hcon
      exact h2' (Option.some.inj hcon)

/-- C5, witness: an accepted order at a concrete reachable state — handle
gone, firing a no-op, and no expiration along a later firing attempt. -/
theorem C5_timer_cleanup_witness :
    (1 ∉ (stepState (runState initialState
      [.iniciar, .criar ⟨some "Ana", some "Pizza"⟩ 0 0, .aceitar 1])
        (.timerFire 1)).timersExpiracao) ∧
    1 ∉ (runState initialState
      [.iniciar, .criar ⟨some "Ana", some "Pizza"⟩ 0 0,
        .aceitar 1]).timersExpiracao ∧
    step (runState initialState
      [.iniciar, .criar ⟨some "Ana", some "Pizza"⟩ 0 0, .aceitar 1])
        (.timerFire 1) =
      (runState initialState
        [.iniciar, .criar ⟨some "Ana", some "Pizza"⟩ 0 0, .aceitar 1], []) ∧
    statusOf (runState (runState initialState
      [.iniciar, .criar ⟨some "Ana", some "Pizza"⟩ 0 0, .aceitar 1])
        [.timerFire 1, .finalizar 1 9]) 1 ≠ some .expirado := by
  have hmain := C5_timer_cleanup (runState initialState
    [.iniciar, .criar ⟨some "Ana", some "Pizza"⟩ 0 0, .aceitar 1])
    ⟨[.iniciar, .criar ⟨some "Ana", some "Pizza"⟩ 0 0, .aceitar 1], rfl⟩ 1
  have hrest := hmain.2.2 .preparando (by decide) (by decide)
  exact ⟨hmain.1, hrest.1, hrest.2.1,
    (hrest.2.2 (by decide) [.timerFire 1, .finalizar 1 9] (by decide)).1⟩

/-- C6: creating an order while the system is inactive fails with the
system-inactive error sent to the caller only, and changes nothing: no
order appended, counter untouched, no timer stored, nothing broadcast. -/
theorem C6_inactive_create (st : SystemState) (dados : Dados)
    (sid agora : Nat) (h : st.sistemaAtivo = false) :
    step st (.criar dados sid agora) =
      (st, [.erroOperacao "Sistema não está ativo!"]) ∧
    (stepState st (.criar dados sid agora)).pedidos = st.pedidos ∧
    (stepState st (.criar dados sid agora)).proximoId = st.proximoId ∧
    (stepState st (.criar dados sid agora)).timersExpiracao =
      st.timersExpiracao ∧
    ∀ e ∈ stepEmissions st (.criar dados sid agora),
      ∃ m, e = .erroOperacao m := by
  have hstep := pedidoCriar_inactive st dados sid agora h
  refine ⟨by rw [step]; exact hstep, ?_, ?_, ?_, ?_⟩
  · rw [stepState, step, hstep]
  · rw [stepState, step, hstep]
  · rw [stepState, step, hstep]
  · intro e he
    rw [stepEmissions, step, hstep] at he
    simp only [List.mem_singleton] at he
    exact ⟨_, he⟩

/-- C6, witness: creating at the fresh (inactive) initial state. -/
theorem C6_inactive_create_witness :
    step initialState (.criar ⟨some "Ana", some "Pizza"⟩ 0 0) =
      (initialState, [.erroOperacao "Sistema não está ativo!"]) ∧
    (stepState initialState
      (.criar ⟨some "Ana", some "Pizza"⟩ 0 0)).pedidos =
      initialState.pedidos ∧
    (stepState initialState
      (.criar ⟨some "Ana", some "Pizza"⟩ 0 0)).proximoId =
      initialState.proximoId ∧
    (stepState initialState
      (.criar ⟨some "Ana", some "Pizza"⟩ 0 0)).timersExpiracao =
      initialState.timersExpiracao ∧
    ∀ e ∈ stepEmissions initialState (.criar ⟨some "Ana", some "Pizza"⟩ 0 0),
      ∃ m, e = .erroOperacao m :=
  C6_inactive_create initialState ⟨some "Ana", some "Pizza"⟩ 0 0 (by decide)

/-- C7: reset cancels every timer, clears the order list, restores the
counter to 1, leaves the active flag as it was, never errors, and only
broadcasts the reset notification. -/
theorem C7_reset (st : SystemState) :
    stepState st .reset =
      { sistemaAtivo := st.sistemaAtivo, pedidos := [], proximoId := 1,
        timersExpiracao := [] } ∧
    stepEmissions st .reset = [.broadcast "sistema.resetado" none] :=
  ⟨rfl, rfl⟩

/-- C8: only `pedido.criar` reads the active flag — every other handler
produces the same orders, counter, timers and emissions whether the flag
is true or false, and never emits the system-inactive error. -/
theorem C8_only_create_checks_flag (st : SystemState) (a : Action)
    (h : checksFlag a = false) :
    (stepState { st with sistemaAtivo := false } a).pedidos =
      (stepState st a).pedidos ∧
    (stepState { st with sistemaAtivo := false } a).proximoId =
      (stepState st a).proximoId ∧
    (stepState { st with sistemaAtivo := false } a).timersExpiracao =
      (stepState st a).timersExpiracao ∧
    stepEmissions { st with sistemaAtivo := false } a = stepEmissions st a ∧
    Emission.erroOperacao "Sistema não está ativo!" ∉
      stepEmissions { st with sistemaAtivo := false } a := by
  obtain ⟨g1, g2, g3, g4⟩ := step_flag_indep st false a h
  exact ⟨g1, g2, g3, g4, no_inactive_error_step _ a h⟩

/-- C8, witness: canceling an order with the flag forced off behaves as
with the flag on and raises no system-inactive error. -/
theorem C8_only_create_checks_flag_witness :
    (stepState { runState initialState
      [.iniciar, .criar ⟨some "Ana", some "Pizza"⟩ 0 0] with
        sistemaAtivo := false } (.cancelar 1 5)).pedidos =
      (stepState (runState initialState
        [.iniciar, .criar ⟨some "Ana", some "Pizza"⟩ 0 0])
          (.cancelar 1 5)).pedidos ∧
    (stepState { runState initialState
      [.iniciar, .criar ⟨some "Ana", some "Pizza"⟩ 0 0] with
        sistemaAtivo := false } (.cancelar 1 5)).proximoId =
      (stepState (runState initialState
        [.iniciar, .criar ⟨some "Ana", some "Pizza"⟩ 0 0])
          (.cancelar 1 5)).proximoId ∧
    (stepState { runState initialState
      [.iniciar, .criar ⟨some "Ana", some "Pizza"⟩ 0 0] with
        sistemaAtivo := false } (.cancelar 1 5)).timersExpiracao =
      (stepState (runState initialState
        [.iniciar, .criar ⟨some "Ana", some "Pizza"⟩ 0 0])
          (.cancelar 1 5)).timersExpiracao ∧
    stepEmissions { runState initialState
      [.iniciar, .criar ⟨some "Ana", some "Pizza"⟩ 0 0] with
        sistemaAtivo := false } (.cancelar 1 5) =
      stepEmissions (runState initialState
        [.iniciar, .criar ⟨some "Ana", some "Pizza"⟩ 0 0]) (.cancelar 1 5) ∧
    Emission.erroOperacao "Sistema não está ativo!" ∉
      stepEmissions { runState initialState
        [.iniciar, .criar ⟨some "Ana", some "Pizza"⟩ 0 0] with
          sistemaAtivo := false } (.cancelar 1 5) :=
  C8_only_create_checks_flag (runState initialState
    [.iniciar, .criar ⟨some "Ana", some "Pizza"⟩ 0 0]) (.cancelar 1 5)
    (by decide)

/-- C9: in every reachable state the stored ids are strictly increasing in
insertion order, hence pairwise distinct — no two coexisting orders ever
share an id, even across resets, because reset also clears the list. -/
theorem C9_ids_strictly_increasing (st : SystemState) (h : Reachable st) :
    List.Chain' (· < ·) (st.pedidos.map Pedido.id) ∧
    List.Pairwise (· ≠ ·) (st.pedidos.map Pedido.id) := by
  obtain ⟨-, h2, -⟩ := inv_reachable st h
  exact ⟨h2, (List.chain'_iff_pairwise.mp h2).imp Nat.ne_of_lt⟩

/-- C9, witness: a state reached through a reset and two creations. -/
theorem C9_ids_strictly_increasing_witness :
    List.Chain' (· < ·) ((runState initialState
      [.iniciar, .criar ⟨some "Ana", some "Pizza"⟩ 0 0, .reset,
        .criar ⟨some "Bob", some "Suco"⟩ 0 9,
        .criar ⟨some "Carla", some "Bolo"⟩ 0 9]).pedidos.map Pedido.id) ∧
    List.Pairwise (· ≠ ·) ((runState initialState
      [.iniciar, .criar ⟨some "Ana", some "Pizza"⟩ 0 0, .reset,
        .criar ⟨some "Bob", some "Suco"⟩ 0 9,
        .criar ⟨some "Carla", some "Bolo"⟩ 0 9]).pedidos.map Pedido.id) :=
  C9_ids_strictly_increasing (runState initialState
    [.iniciar, .criar ⟨some "Ana", some "Pizza"⟩ 0 0, .reset,
      .criar ⟨some "Bob", some "Suco"⟩ 0 9,
      .criar ⟨some "Carla", some "Bolo"⟩ 0 9])
    ⟨[.iniciar, .criar ⟨some "Ana", some "Pizza"⟩ 0 0, .reset,
      .criar ⟨some "Bob", some "Suco"⟩ 0 9,
      .criar ⟨some "Carla", some "Bolo"⟩ 0 9], rfl⟩

/-- C10: accept, finalize, cancel, deliver and the timer callback leave
every order's creation-time fields (`id`, `cliente`, `itens`, `criadoEm`,
`socketId`) untouched, change at most the status and the one timestamp
belonging to the transition, and touch neither the flag nor the
counter. -/
theorem C10_creation_fields_immutable (st : SystemState) (pid agora : Nat) :
    frameOk st (.aceitar pid) (changesOnly false false false) ∧
    frameOk st (.finalizar pid agora) (changesOnly true false false) ∧
    frameOk st (.cancelar pid agora) (changesOnly false true false) ∧
    frameOk st (.entregar pid agora) (changesOnly false false true) ∧
    frameOk st (.timerFire pid) (changesOnly false false false) := by
  refine ⟨?_, ?_, ?_, ?_, ?_⟩
  · rcases hfind : findPedido st.pedidos pid with _ | q
    · exact frameOk_of_eq _ _ _ (changesOnly_refl _ _ _)
        (by rw [stepState, step, pedidoAceitar_not_found st pid hfind])
    · by_cases hq : q.status = .pendente
      · exact frameOk_of_update _ _ _ (changesOnly_refl _ _ _) pid
          (fun p => { p with status := Status.preparando })
          (limparTimer pid st.timersExpiracao)
          (fun p => ⟨⟨rfl, rfl, rfl, rfl, rfl⟩, fun _ => rfl, fun _ => rfl,
            fun _ => rfl⟩)
          (by rw [stepState, step, pedidoAceitar_ok st pid q hfind hq])
      · exact frameOk_of_eq _ _ _ (changesOnly_refl _ _ _)
          (by rw [stepState, step,
            pedidoAceitar_wrong_status st pid q hfind hq])
  · rcases hfind : findPedido st.pedidos pid with _ | q
    · exact frameOk_of_eq _ _ _ (changesOnly_refl _ _ _)
        (by rw [stepState, step, pedidoFinalizar_not_found st pid agora hfind])
    · by_cases hq : q.status = .preparando
      · exact frameOk_of_update _ _ _ (changesOnly_refl _ _ _) pid
          (fun p => { p with status := Status.pronto, prontoEm := some agora })
          st.timersExpiracao
          (fun p => ⟨⟨rfl, rfl, rfl, rfl, rfl⟩,
            fun hc => absurd hc (by decide), fun _ => rfl, fun _ => rfl⟩)
          (by rw [stepState, step, pedidoFinalizar_ok st pid agora q hfind hq])
      · exact frameOk_of_eq _ _ _ (changesOnly_refl _ _ _)
          (by rw [stepState, step,
            pedidoFinalizar_wrong_status st pid agora q hfind hq])
  · rcases hfind : findPedido st.pedidos pid with _ | q
    · exact frameOk_of_eq _ _ _ (changesOnly_refl _ _ _)
        (by rw [stepState, step, pedidoCancelar_not_found st pid agora hfind])
    · by_cases hq : q.status = .entregue ∨ q.status = .cancelado
      · exact frameOk_of_eq _ _ _ (changesOnly_refl _ _ _)
          (by rw [stepState, step,
            pedidoCancelar_blocked st pid agora q hfind hq])
      · exact frameOk_of_update _ _ _ (changesOnly_refl _ _ _) pid
          (fun p =>
            { p with status := Status.cancelado, canceladoEm := some agora })
          (limparTimer pid st.timersExpiracao)
          (fun p => ⟨⟨rfl, rfl, rfl, rfl, rfl⟩, fun _ => rfl,
            fun hc => absurd hc (by decide), fun _ => rfl⟩)
          (by rw [stepState, step, pedidoCancelar_ok st pid agora q hfind hq])
  · rcases hfind : findPedido st.pedidos pid with _ | q
    · exact frameOk_of_eq _ _ _ (changesOnly_refl _ _ _)
        (by rw [stepState, step, pedidoEntregar_not_found st pid agora hfind])
    · by_cases hq : q.status = .pronto
      · exact frameOk_of_update _ _ _ (changesOnly_refl _ _ _) pid
          (fun p =>
            { p with status := Status.entregue, entregueEm := some agora })
          st.timersExpiracao
          (fun p => ⟨⟨rfl, rfl, rfl, rfl, rfl⟩, fun _ => rfl, fun _ => rfl,
            fun hc => absurd hc (by decide)⟩)
          (by rw [stepState, step, pedidoEntregar_ok st pid agora q hfind hq])
      · exact frameOk_of_eq _ _ _ (changesOnly_refl _ _ _)
          (by rw [stepState, step,
            pedidoEntregar_wrong_status st pid agora q hfind hq])
  · by_cases hmem : pid ∈ st.timersExpiracao
    · rcases hfind : findPedido st.pedidos pid with _ | q
      · exact frameOk_of_eq _ _ _ (changesOnly_refl _ _ _)
          (by rw [stepState, step, timerFireStep, if_pos hmem,
            timerCallback_not_found st pid hfind])
      · by_cases hq : q.status = .pendente
        · exact frameOk_of_update _ _ _ (changesOnly_refl _ _ _) pid
            (fun p => { p with status := Status.expirado })
            (st.timersExpiracao.filter (fun t => t ≠ pid))
            (fun p => ⟨⟨rfl, rfl, rfl, rfl, rfl⟩, fun _ => rfl, fun _ => rfl,
              fun _ => rfl⟩)
            (by rw [stepState, step, timerFireStep, if_pos hmem,
              timerCallback_pending st pid q hfind hq])
        · exact frameOk_of_eq _ _ _ (changesOnly_refl _ _ _)
            (by rw [stepState, step, timerFireStep, if_pos hmem,
              timerCallback_not_pending st pid q hfind hq])
    · exact frameOk_of_eq _ _ _ (changesOnly_refl _ _ _)
        (by rw [stepState, step, timerFireStep_dead st pid hmem])

end Pedidos
